import Mathlib

/-!
Verification of the core game simulation of the Cupid's Arrow Runner
mini-game (CupidGame component). The definitions below are a shallow
embedding of the game's constants, data model, procedural generators and
the per-frame update (gameLoop) into Lean, with JavaScript numbers
modelled as rationals, Math.sin modelled as an abstract function supplied
by an environment, and Math.random modelled as explicit streams of
rational draws passed to the generators.
-/

namespace Cupid

/-! ## Constants (module-level constants of CupidGame) -/

def GRAVITY : ℚ := 0.20
def FLAP_STRENGTH : ℚ := -5
def PILLAR_WIDTH : ℚ := 52
def PILLAR_SPACING : ℚ := 250
def PLAYER_SIZE : ℚ := 32
def HEART_SIZE : ℚ := 24
def BOSS_SIZE : ℚ := 48
def MEGA_BOSS_SIZE : ℚ := 64
def PROJECTILE_SIZE : ℚ := 20
def ARROW_SIZE : ℚ := 14
def ARROW_SPEED : ℚ := 5
def BOSS_SHOOT_INTERVAL : ℚ := 78
def MEGA_BOSS_SHOOT_INTERVAL : ℚ := 52
def MEGA_BOSS_HP : ℤ := 3
def PLAYER_ARROW_INTERVAL : ℚ := 80
def BOSS_ADVANCE_SPEED : ℚ := 0.34
def HITBOX_INSET : ℚ := 6

/-- Device-dependent physics tuning (GRAVITY_EFF / RISE_GRAVITY_MULT):
mobile uses gravity 0.18 with rise multiplier 2.5, desktop uses GRAVITY
with multiplier 1.0. We keep both as parameters. -/
structure Phys where
  gravity : ℚ
  riseMult : ℚ
  deriving DecidableEq, Repr

def desktopPhys : Phys := ⟨GRAVITY, 1⟩
def mobilePhys : Phys := ⟨0.18, 2.5⟩

/-! ## Data model -/

structure Player where
  x : ℚ
  y : ℚ
  vy : ℚ
  width : ℚ
  height : ℚ
  deriving DecidableEq, Repr

structure Pillar where
  x : ℚ
  gapY : ℚ
  gapSize : ℚ
  width : ℚ
  passed : Bool
  phase : ℚ
  deriving DecidableEq, Repr

structure Heart where
  x : ℚ
  y : ℚ
  collected : Bool
  deriving DecidableEq, Repr

structure Projectile where
  x : ℚ
  y : ℚ
  vx : ℚ
  deriving DecidableEq, Repr

structure PlayerArrow where
  x : ℚ
  y : ℚ
  vx : ℚ
  deriving DecidableEq, Repr

structure WindZone where
  x : ℚ
  y : ℚ
  width : ℚ
  height : ℚ
  force : ℚ
  phase : ℚ
  deriving DecidableEq, Repr

structure Boss where
  x : ℚ
  y : ℚ
  health : ℤ
  maxHealth : ℤ
  phase : ℚ
  timer : ℚ
  shootCooldown : ℚ
  deriving DecidableEq, Repr

structure LevelConfig where
  pillarCount : ℕ
  gapSize : ℚ
  speed : ℚ
  heartCount : ℕ
  heartPoints : ℤ
  movingPillars : Bool
  pillarWaveAmplitude : ℚ
  hasBoss : Bool
  hasWind : Bool
  deriving DecidableEq, Repr

def LEVELS : List LevelConfig :=
  [ ⟨6, 240, 1.2, 4, 2, false, 0, false, false⟩,
    ⟨8, 220, 1.4, 6, 3, true, 0.4, false, false⟩,
    ⟨10, 205, 1.6, 10, 4, true, 0.6, true, false⟩,
    ⟨13, 175, 2.0, 12, 5, true, 0.8, true, true⟩ ]

def cfg0 : LevelConfig := ⟨0, 0, 0, 0, 0, false, 0, false, false⟩
def pillar0 : Pillar := ⟨0, 0, 0, 0, false, 0⟩

/-! ## Gravity integration (gameLoop, playing branch)

Lines: the asymmetric-gravity step
  g = GRAVITY_EFF * (vy below 0 ? RISE_GRAVITY_MULT : 1.0)
  vy += g * dt
  y  += vy_old * dt + g * dt * (dt + 1) / 2
-/

def gravityStep (ph : Phys) (dt : ℚ) (p : Player) : Player :=
  let g : ℚ := ph.gravity * (if p.vy < 0 then ph.riseMult else 1)
  { p with vy := p.vy + g * dt, y := p.y + p.vy * dt + g * dt * (dt + 1) / 2 }

/-- Folding the gravity step over a list of sub-steps. -/
def gravityRun (ph : Phys) (dts : List ℚ) (p : Player) : Player :=
  dts.foldl (fun q d => gravityStep ph d q) p

theorem gravityStep_vy_nonneg (ph : Phys) (hg : 0 ≤ ph.gravity) (dt : ℚ)
    (hdt : 0 ≤ dt) (p : Player) (hv : 0 ≤ p.vy) :
    0 ≤ (gravityStep ph dt p).vy := by
  obtain ⟨x, y, vy, w, ht⟩ := p
  simp only at hv
  simp only [gravityStep, if_neg (not_lt.mpr hv)]
  nlinarith

theorem gravityStep_comp (ph : Phys) (d₁ d₂ : ℚ) (p : Player) (hv : 0 ≤ p.vy)
    (hg : 0 ≤ ph.gravity) (h₁ : 0 ≤ d₁) :
    gravityStep ph d₂ (gravityStep ph d₁ p) = gravityStep ph (d₁ + d₂) p := by
  obtain ⟨x, y, vy, w, ht⟩ := p
  simp only at hv
  have h1 : ¬ vy < 0 := not_lt.mpr hv
  have h2 : ¬ vy + ph.gravity * 1 * d₁ < 0 := by push_neg; nlinarith
  simp only [gravityStep, if_neg h1, if_neg h2, Player.mk.injEq]
  exact ⟨trivial, by ring, by ring, trivial, trivial⟩

theorem gravityRun_eq_single (ph : Phys) (hg : 0 ≤ ph.gravity) (dts : List ℚ)
    (hdts : ∀ d ∈ dts, 0 ≤ d) (p : Player) (hv : 0 ≤ p.vy) :
    gravityRun ph dts p = gravityStep ph dts.sum p := by
  induction dts generalizing p with
  | nil =>
    obtain ⟨x, y, vy, w, ht⟩ := p
    simp [gravityRun, gravityStep]
  | cons d rest ih =>
    have hd : 0 ≤ d := hdts d (List.mem_cons_self d rest)
    have hrest : ∀ e ∈ rest, 0 ≤ e := fun e he => hdts e (List.mem_cons_of_mem d he)
    have hv' : 0 ≤ (gravityStep ph d p).vy := gravityStep_vy_nonneg ph hg d hd p hv
    calc gravityRun ph (d :: rest) p
        = gravityRun ph rest (gravityStep ph d p) := rfl
      _ = gravityStep ph rest.sum (gravityStep ph d p) := ih hrest _ hv'
      _ = gravityStep ph (d + rest.sum) p := gravityStep_comp ph d rest.sum p hv hg hd
      _ = gravityStep ph (d :: rest).sum p := by rw [List.sum_cons]

/-- Claim C1: for every initial vertical velocity and every finite sequence of
positive time-scale factors summing to D, applying the playing-tick gravity
update once per sub-step yields exactly the same final velocity and the same
final vertical position (hence the same net displacement) as applying it once
with dt = D, under pure gravity with non-negative velocity throughout (so the
rising-gravity multiplier never applies); exact over the rationals. -/
theorem c1_gravity_step_size_invariant (ph : Phys) (hg : 0 ≤ ph.gravity)
    (p : Player) (hv : 0 ≤ p.vy) (dts : List ℚ) (hdts : ∀ d ∈ dts, 0 < d) :
    (gravityRun ph dts p).vy = (gravityStep ph dts.sum p).vy ∧
    (gravityRun ph dts p).y - p.y = (gravityStep ph dts.sum p).y - p.y := by
  have h := gravityRun_eq_single ph hg dts (fun d hd => le_of_lt (hdts d hd)) p hv
  rw [h]
  exact ⟨rfl, rfl⟩

/-- Witness for C1 at a concrete input: mobile tuning (rise multiplier 2.5),
initial velocity 0, sub-steps 1/2 + 3/2 + 1 = 3. -/
theorem c1_gravity_step_size_invariant_witness :
    (gravityRun mobilePhys [1/2, 3/2, 1] ⟨80, 200, 0, 32, 32⟩).vy
      = (gravityStep mobilePhys 3 ⟨80, 200, 0, 32, 32⟩).vy ∧
    (gravityRun mobilePhys [1/2, 3/2, 1] ⟨80, 200, 0, 32, 32⟩).y - 200
      = (gravityStep mobilePhys 3 ⟨80, 200, 0, 32, 32⟩).y - 200 := by
  have h := c1_gravity_step_size_invariant mobilePhys (by norm_num [mobilePhys])
    ⟨80, 200, 0, 32, 32⟩ (by norm_num) [1/2, 3/2, 1]
    (by intro d hd; simp at hd; rcases hd with h | h | h <;> norm_num [h])
  have hsum : ([1/2, 3/2, 1] : List ℚ).sum = 3 := by norm_num
  rw [hsum] at h
  simpa using h

/-! ## Procedural generators -/

/-- resizeCanvas: the canvas width is the container width capped at 700. -/
def resizeCanvasW (rectW : ℚ) : ℚ := min rectW 700

/-- resizeCanvas: the canvas height is the container height minus 60, capped at 600. -/
def resizeCanvasH (rectH : ℚ) : ℚ := min (rectH - 60) 600

/-- generatePillars: config.pillarCount pillars, the i-th at x = 500 + i*250,
gap center drawn from the band via the random stream (rnd (2i) for the gap,
rnd (2i+1) for the phase), phase = random * 2π where twoPi stands for the
value of Math.PI * 2. -/
def generatePillars (cfg : LevelConfig) (canvasHeight : ℚ) (twoPi : ℚ)
    (rnd : ℕ → ℚ) : List Pillar :=
  (List.range cfg.pillarCount).map fun i =>
    let minGapY := cfg.gapSize / 2 + 50
    let maxGapY := canvasHeight - cfg.gapSize / 2 - 50
    let gapY := minGapY + rnd (2 * i) * (maxGapY - minGapY)
    { x := 500 + (i : ℚ) * PILLAR_SPACING, gapY := gapY, gapSize := cfg.gapSize,
      width := PILLAR_WIDTH, passed := false, phase := rnd (2 * i + 1) * twoPi }

theorem generatePillars_length (cfg : LevelConfig) (H twoPi : ℚ) (rnd : ℕ → ℚ) :
    (generatePillars cfg H twoPi rnd).length = cfg.pillarCount := by
  simp [generatePillars]

theorem generatePillars_getD (cfg : LevelConfig) (H twoPi : ℚ) (rnd : ℕ → ℚ)
    (i : ℕ) (hi : i < cfg.pillarCount) :
    (generatePillars cfg H twoPi rnd).getD i pillar0 =
      { x := 500 + (i : ℚ) * PILLAR_SPACING,
        gapY := cfg.gapSize / 2 + 50 + rnd (2 * i) * (H - cfg.gapSize / 2 - 50 - (cfg.gapSize / 2 + 50)),
        gapSize := cfg.gapSize, width := PILLAR_WIDTH, passed := false,
        phase := rnd (2 * i + 1) * twoPi } := by
  simp [generatePillars, List.getD, List.getElem?_map, List.getElem?_range, hi]

/-- Claim C4, counterexample to the claim as stated: the pillars do not in
general start past the right edge of the visible canvas. resizeCanvas allows a
canvas 700 pixels wide (container width 900 is capped at 700), yet the first
generated pillar sits at x = 500 < 700, i.e. inside the visible canvas. -/
theorem c4_pillars_not_past_right_edge :
    resizeCanvasW 900 = 700 ∧
    ((generatePillars (LEVELS.getD 0 cfg0) 500 6 (fun _ => 1/2)).getD 0 pillar0).x = 500 ∧
    ¬ (resizeCanvasW 900 ≤
        ((generatePillars (LEVELS.getD 0 cfg0) 500 6 (fun _ => 1/2)).getD 0 pillar0).x) := by
  refine ⟨by norm_num [resizeCanvasW], ?_, ?_⟩ <;>
    · rw [generatePillars_getD _ _ _ _ 0 (by norm_num [LEVELS])]
      norm_num [resizeCanvasW, PILLAR_SPACING]

/-- Claim C4 (amended): for every level config, canvas height H with
H at least gapSize + 100, unit-interval random stream and positive twoPi
(the value of 2π), generatePillars returns exactly config.pillarCount
obstacles, the i-th at the fixed abscissa 500 + i*250 (past the right edge of
the canvas only when the canvas is narrower than 500), each with oscillation
phase in [0, twoPi), not yet passed, of width 52, and with a gap center in the
band [gapSize/2 + 50, H - gapSize/2 - 50], so the full gap fits on-screen with
a 50-pixel margin. -/
theorem c4_generatePillars_spec (cfg : LevelConfig) (H twoPi : ℚ) (rnd : ℕ → ℚ)
    (hrnd : ∀ n, 0 ≤ rnd n ∧ rnd n < 1) (hPi : 0 < twoPi)
    (hH : cfg.gapSize + 100 ≤ H) :
    (generatePillars cfg H twoPi rnd).length = cfg.pillarCount ∧
    ∀ i, i < cfg.pillarCount →
      ((generatePillars cfg H twoPi rnd).getD i pillar0).x = 500 + (i : ℚ) * 250 ∧
      0 ≤ ((generatePillars cfg H twoPi rnd).getD i pillar0).phase ∧
      ((generatePillars cfg H twoPi rnd).getD i pillar0).phase < twoPi ∧
      cfg.gapSize / 2 + 50 ≤ ((generatePillars cfg H twoPi rnd).getD i pillar0).gapY ∧
      ((generatePillars cfg H twoPi rnd).getD i pillar0).gapY ≤ H - cfg.gapSize / 2 - 50 ∧
      ((generatePillars cfg H twoPi rnd).getD i pillar0).passed = false ∧
      ((generatePillars cfg H twoPi rnd).getD i pillar0).width = 52 := by
  refine ⟨generatePillars_length cfg H twoPi rnd, fun i hi => ?_⟩
  rw [generatePillars_getD cfg H twoPi rnd i hi]
  obtain ⟨hr0, hr1⟩ := hrnd (2 * i)
  obtain ⟨hs0, hs1⟩ := hrnd (2 * i + 1)
  refine ⟨by norm_num [PILLAR_SPACING], ?_, ?_, ?_, ?_, rfl, by norm_num [PILLAR_WIDTH]⟩
  · exact mul_nonneg hs0 (le_of_lt hPi)
  · nlinarith
  · nlinarith
  · nlinarith

/-- Witness for C4 (amended) at a concrete input: level 0 config (gapSize 240),
canvas height 500, twoPi = 6, constant random stream 1/2; checks the first
pillar concretely. -/
theorem c4_generatePillars_spec_witness :
    (generatePillars (LEVELS.getD 0 cfg0) 500 6 (fun _ => 1/2)).length = 6 ∧
    ((generatePillars (LEVELS.getD 0 cfg0) 500 6 (fun _ => 1/2)).getD 0 pillar0).x = 500 ∧
    ((generatePillars (LEVELS.getD 0 cfg0) 500 6 (fun _ => 1/2)).getD 0 pillar0).gapY = 250 := by
  have h := c4_generatePillars_spec (LEVELS.getD 0 cfg0) 500 6 (fun _ => 1/2)
    (fun n => by norm_num) (by norm_num) (by norm_num [LEVELS, cfg0])
  refine ⟨by simpa [LEVELS, cfg0] using h.1,
    by simpa using (h.2 0 (by norm_num [LEVELS, cfg0])).1, ?_⟩
  rw [generatePillars_getD _ _ _ _ 0 (by norm_num [LEVELS, cfg0])]
  norm_num [LEVELS, cfg0]

/-! ## generateHearts: Fisher-Yates shuffle, slice, sort, place at gap centers.
The stream c gives, for each loop index i, the value floor(random * (i+1)). -/

/-- One Fisher-Yates swap: exchange positions i and j of the array. -/
def listSwap {α : Type} (l : List α) (i j : ℕ) : List α :=
  match l[i]?, l[j]? with
  | some a, some b => (l.set i b).set j a
  | _, _ => l

theorem cons_set_perm {α : Type} :
    ∀ (xs : List α) (j : ℕ) (b x : α), xs[j]? = some b →
      (b :: xs.set j x).Perm (x :: xs) := by
  intro xs
  induction xs with
  | nil => intro j b x h; simp at h
  | cons y t ih =>
    intro j b x h
    cases j with
    | zero =>
      simp only [List.getElem?_cons_zero, Option.some.injEq] at h
      subst h
      exact List.Perm.swap x y t
    | succ j =>
      simp only [List.getElem?_cons_succ] at h
      show (b :: y :: t.set j x).Perm (x :: y :: t)
      have s1 : (b :: y :: t.set j x).Perm (y :: b :: t.set j x) := List.Perm.swap y b _
      have s2 : (y :: b :: t.set j x).Perm (y :: x :: t) := (ih j b x h).cons y
      have s3 : (y :: x :: t).Perm (x :: y :: t) := List.Perm.swap x y t
      exact (s1.trans s2).trans s3

theorem set_set_perm {α : Type} :
    ∀ (l : List α) (i j : ℕ) (a b : α), l[i]? = some a → l[j]? = some b →
      ((l.set i b).set j a).Perm l := by
  intro l
  induction l with
  | nil => intro i j a b h1 _; simp at h1
  | cons x t ih =>
    intro i j a b h1 h2
    cases i with
    | zero =>
      simp only [List.getElem?_cons_zero, Option.some.injEq] at h1
      subst h1
      cases j with
      | zero =>
        simp only [List.getElem?_cons_zero, Option.some.injEq] at h2
        subst h2
        simp
      | succ j =>
        simp only [List.getElem?_cons_succ] at h2
        exact cons_set_perm t j b x h2
    | succ i =>
      simp only [List.getElem?_cons_succ] at h1
      cases j with
      | zero =>
        simp only [List.getElem?_cons_zero, Option.some.injEq] at h2
        subst h2
        exact cons_set_perm t i a x h1
      | succ j =>
        simp only [List.getElem?_cons_succ] at h2
        show (x :: (t.set i b).set j a).Perm (x :: t)
        exact (ih i j a b h1 h2).cons x

theorem listSwap_perm {α : Type} (l : List α) (i j : ℕ) :
    (listSwap l i j).Perm l := by
  unfold listSwap
  cases h1 : l[i]? with
  | none => exact List.Perm.refl l
  | some a =>
    cases h2 : l[j]? with
    | none => exact List.Perm.refl l
    | some b => exact set_set_perm l i j a b h1 h2

/-- The Fisher-Yates loop: i runs from length - 1 down to 1, swapping index i
with index c i (the value of floor(random * (i + 1))). -/
def fyShuffleAux {α : Type} (c : ℕ → ℕ) : ℕ → List α → List α
  | 0, l => l
  | i + 1, l => fyShuffleAux c i (listSwap l (i + 1) (c (i + 1)))

def fyShuffle {α : Type} (l : List α) (c : ℕ → ℕ) : List α :=
  fyShuffleAux c (l.length - 1) l

theorem fyShuffleAux_perm {α : Type} (c : ℕ → ℕ) :
    ∀ (i : ℕ) (l : List α), (fyShuffleAux c i l).Perm l := by
  intro i
  induction i with
  | zero => intro l; exact List.Perm.refl l
  | succ i ih =>
    intro l
    exact (ih (listSwap l (i + 1) (c (i + 1)))).trans (listSwap_perm l (i + 1) (c (i + 1)))

theorem fyShuffle_perm {α : Type} (l : List α) (c : ℕ → ℕ) :
    (fyShuffle l c).Perm l :=
  fyShuffleAux_perm c (l.length - 1) l

/-- generateHearts: shuffle the pillar indices (Fisher-Yates), take the first
min(count, length) of them, sort ascending, and place one heart at each
selected pillar's horizontal center and gap center. -/
def generateHearts (pillars : List Pillar) (count : ℕ) (c : ℕ → ℕ) : List Heart :=
  let indices := fyShuffle (List.range pillars.length) c
  let selected := (indices.take (min count pillars.length)).mergeSort (fun a b => decide (a ≤ b))
  selected.map fun idx =>
    let p := pillars.getD idx pillar0
    { x := p.x + p.width / 2, y := p.gapY, collected := false }

/-- Claim C9: for every pillar list and requested count, generateHearts
returns exactly min(count, length) collectibles placed at distinct pillars
chosen without replacement by the shuffle, listed in increasing pillar-index
order, each positioned at its pillar's horizontal center (p.x + width/2) and
gap center (p.gapY) with collected = false. -/
theorem c9_generateHearts_spec (pillars : List Pillar) (count : ℕ) (c : ℕ → ℕ) :
    ∃ sel : List ℕ,
      sel.length = min count pillars.length ∧
      sel.Sorted (· < ·) ∧
      (∀ i ∈ sel, i < pillars.length) ∧
      generateHearts pillars count c =
        sel.map (fun idx =>
          { x := (pillars.getD idx pillar0).x + (pillars.getD idx pillar0).width / 2,
            y := (pillars.getD idx pillar0).gapY, collected := false }) := by
  classical
  set n := pillars.length with hn
  set shuffled := fyShuffle (List.range n) c with hshuf
  set taken := shuffled.take (min count n) with htk
  set sel := taken.mergeSort (fun a b => decide (a ≤ b)) with hsel
  have hperm : shuffled.Perm (List.range n) := fyShuffle_perm _ c
  have hlenshuf : shuffled.length = n := hperm.length_eq.trans (List.length_range n)
  have hsublist : taken.Sublist shuffled := List.take_sublist _ _
  have hsortperm : sel.Perm taken := List.mergeSort_perm taken _
  refine ⟨sel, ?_, ?_, ?_, ?_⟩
  · rw [hsortperm.length_eq, htk, List.length_take, hlenshuf,
      min_eq_left (min_le_right count n)]
  · have hpw : sel.Pairwise (fun a b => decide (a ≤ b) = true) :=
      @List.sorted_mergeSort ℕ (fun a b => decide (a ≤ b))
        (by intro a b c hab hbc; simp at *; omega)
        (by intro a b; simp [Nat.le_total]) taken
    have hnd : sel.Nodup := by
      refine hsortperm.nodup_iff.mpr ?_
      exact (hperm.nodup_iff.mpr (List.nodup_range n)).sublist hsublist
    have := hpw.and hnd
    refine this.imp ?_
    intro a b hab
    simp only [decide_eq_true_eq] at hab
    exact lt_of_le_of_ne hab.1 hab.2
  · intro i hi
    have : i ∈ taken := hsortperm.mem_iff.mp hi
    have : i ∈ shuffled := hsublist.subset this
    have : i ∈ List.range n := hperm.mem_iff.mp this
    exact List.mem_range.mp this
  · rfl

/-- generateWindZones: wind zones in the corridors between every 2nd and 3rd
pillar (loop i = 1, 3, 5, ... while i is below length - 1), forces alternating
by i mod 4, with randomized vertical offset and animation phase. -/
def generateWindZones (ps : List Pillar) (canvasHeight : ℚ) (twoPi : ℚ)
    (rndW : ℕ → ℚ) : List WindZone :=
  ((List.range ps.length).filter (fun i => decide (i % 2 = 1 ∧ i + 1 < ps.length))).map fun i =>
    let p1 := ps.getD i pillar0
    let p2 := ps.getD (i + 1) pillar0
    let midX := (p1.x + p1.width + p2.x) / 2
    let zoneW : ℚ := 35
    let zoneH := canvasHeight * 0.25
    let force : ℚ := if i % 4 = 1 then -0.15 else 0.15
    ⟨midX - zoneW / 2,
     canvasHeight / 2 - zoneH / 2 + (rndW (2 * i) - 0.5) * canvasHeight * 0.2,
     zoneW, zoneH, force, rndW (2 * i + 1) * twoPi⟩

/-! ## Game state machine (gameLoop and friends) -/

inductive Screen where
  | countdown
  | playing
  | levelComplete
  | gameOver
  | bossIntro
  | bossFreeze
  | bossExplode
  | victory
  deriving DecidableEq, Repr

/-- Per-tick environment: the canvas dimensions, the device physics tuning,
and an abstract model of Math.sin. -/
structure Env where
  sinq : ℚ → ℚ
  w : ℚ
  h : ℚ
  phys : Phys

/-- The mutable refs of the CupidGame component that drive simulation logic. -/
structure GameState where
  screen : Screen
  level : ℕ
  score : ℤ
  bestScore : ℤ
  newHighScore : Bool
  levelStartScore : ℤ
  bossStartScore : ℤ
  player : Player
  pillars : List Pillar
  hearts : List Heart
  boss : Option Boss
  projectiles : List Projectile
  arrows : List PlayerArrow
  arrowCooldown : ℚ
  windZones : List WindZone
  frame : ℚ
  hasFlapped : Bool
  diedDuringBoss : Bool
  explodeTimer : ℚ
  explodePosX : ℚ
  explodePosY : ℚ
  countdownVal : ℤ
  countdownTimer : ℚ
  deriving DecidableEq, Repr

/-- updateBestScore: record a new session best and flag the high-score
animation when the running score exceeds the best. -/
def updateBest (score best : ℤ) (flag : Bool) : ℤ × Bool :=
  if best < score then (score, true) else (best, flag)

/-- transitionToScreen: update the best score, then freeze the loop on the
target screen. -/
def transitionScreen (target : Screen) (s : GameState) : GameState :=
  let bf := updateBest s.score s.bestScore s.newHighScore
  { s with bestScore := bf.1, newHighScore := bf.2, screen := target }

/-- Circular proximity test: Math.sqrt(dx*dx + dy*dy) below r, expressed
without the square root (equivalent for non-negative radii, and false for
negative radii exactly as in the source). -/
def circleHit (dx dy r : ℚ) : Bool :=
  decide (0 ≤ r) && decide (dx * dx + dy * dy < r * r)

/-- Pillar scroll and gap-center oscillation for one tick. -/
def movePillar (env : Env) (cfg : LevelConfig) (dt frame : ℚ) (p : Pillar) : Pillar :=
  { p with x := p.x - cfg.speed * dt,
           gapY := if cfg.movingPillars then
               p.gapY + env.sinq (frame * 0.03 + p.phase) * cfg.pillarWaveAmplitude * dt
             else p.gapY }

def moveHeart (cfg : LevelConfig) (dt : ℚ) (ht : Heart) : Heart :=
  { ht with x := ht.x - cfg.speed * dt }

def moveWindZone (cfg : LevelConfig) (dt : ℚ) (wz : WindZone) : WindZone :=
  { wz with x := wz.x - cfg.speed * dt, phase := wz.phase + 0.06 * dt }

/-- Wind zones whose rectangle contains the player's center nudge the
vertical velocity by force * dt. -/
def applyWind (dt : ℚ) (zones : List WindZone) (pl : Player) : Player :=
  zones.foldl (fun q wz =>
    let px := q.x + q.width / 2
    let py := q.y + q.height / 2
    if wz.x < px ∧ px < wz.x + wz.width ∧ wz.y < py ∧ py < wz.y + wz.height then
      { q with vy := q.vy + wz.force * dt }
    else q) pl

/-- Pillar passing: each not-yet-passed pillar whose right edge is left of the
player's x is marked passed and scores one point, with a best-score check per
event. Returns the marked pillars and the updated score / best / flag. -/
def passPillars (pl : Player) :
    List Pillar → ℤ → ℤ → Bool → List Pillar × ℤ × ℤ × Bool
  | [], score, best, flag => ([], score, best, flag)
  | p :: rest, score, best, flag =>
    if ¬ p.passed ∧ p.x + p.width < pl.x then
      let score' := score + 1
      let bf := updateBest score' best flag
      let r := passPillars pl rest score' bf.1 bf.2
      ({ p with passed := true } :: r.1, r.2.1, r.2.2.1, r.2.2.2)
    else
      let r := passPillars pl rest score best flag
      (p :: r.1, r.2.1, r.2.2.1, r.2.2.2)

/-- Heart collection: circular proximity between player center and heart,
radius = player.width/2 + HEART_SIZE/2; scores heartPoints per event. -/
def collectHearts (cfg : LevelConfig) (pl : Player) :
    List Heart → ℤ → ℤ → Bool → List Heart × ℤ × ℤ × Bool
  | [], score, best, flag => ([], score, best, flag)
  | hrt :: rest, score, best, flag =>
    if ¬ hrt.collected ∧
        circleHit (pl.x + pl.width / 2 - hrt.x) (pl.y + pl.height / 2 - hrt.y)
          (pl.width / 2 + HEART_SIZE / 2) = true then
      let score' := score + cfg.heartPoints
      let bf := updateBest score' best flag
      let r := collectHearts cfg pl rest score' bf.1 bf.2
      ({ hrt with collected := true } :: r.1, r.2.1, r.2.2.1, r.2.2.2)
    else
      let r := collectHearts cfg pl rest score best flag
      (hrt :: r.1, r.2.1, r.2.2.1, r.2.2.2)

/-- The per-pillar collision test with the 6-pixel inset hitbox. -/
def pillarHit (pl : Player) (p : Pillar) : Bool :=
  (decide (pl.x + pl.width - HITBOX_INSET > p.x) &&
   decide (pl.x + HITBOX_INSET < p.x + p.width)) &&
  (decide (pl.y + HITBOX_INSET < p.gapY - p.gapSize / 2) ||
   decide (pl.y + pl.height - HITBOX_INSET > p.gapY + p.gapSize / 2))

def checkPillarCollision (pl : Player) (ps : List Pillar) : Bool :=
  ps.any (pillarHit pl)

/-- Boss timer, sinusoidal phase and vertical position update. -/
def bossUpdate (env : Env) (dt : ℚ) (b : Boss) : Boss :=
  let phase' := b.phase + 0.04 * dt
  { b with timer := b.timer + dt, phase := phase',
           y := env.h / 2 + env.sinq phase' * (env.h * 0.35) }

/-- The player advances toward the boss at a constant rate (regular boss
only; the mega boss duel is stationary). -/
def advancePlayer (isMega : Bool) (dt : ℚ) (pl : Player) : Player :=
  if isMega then pl else { pl with x := pl.x + BOSS_ADVANCE_SPEED * dt }

/-- Boss shooting: the regular boss fires a single projectile on a cooldown
that shortens with the player's closeness; the mega boss fires two
projectiles from offset vertical positions at a constant rate. -/
def bossShoot (cfg : LevelConfig) (isMega : Bool) (dt bossSize : ℚ)
    (pl : Player) (b : Boss) : Boss × List Projectile :=
  if isMega then
    let cd := b.shootCooldown - dt
    if cd ≤ 0 then
      ({ b with shootCooldown := MEGA_BOSS_SHOOT_INTERVAL },
       [⟨b.x - bossSize / 2, b.y - bossSize / 3, -(cfg.speed + 2.5)⟩,
        ⟨b.x - bossSize / 2, b.y + bossSize / 3, -(cfg.speed + 2.5)⟩])
    else ({ b with shootCooldown := cd }, [])
  else
    let totalDist := b.x - bossSize / 2 - (80 + PLAYER_SIZE)
    let currentDist := b.x - bossSize / 2 - (pl.x + pl.width)
    let closeness := 1 - max 0 (min 1 (currentDist / totalDist))
    let adjustedInterval := BOSS_SHOOT_INTERVAL * (1 + closeness * 2)
    let cd := b.shootCooldown - dt
    if cd ≤ 0 then
      ({ b with shootCooldown := adjustedInterval },
       [⟨b.x, b.y + bossSize / 2, -(cfg.speed + 2)⟩])
    else ({ b with shootCooldown := cd }, [])

def moveProjectiles (dt : ℚ) (ps : List Projectile) : List Projectile :=
  (ps.map fun p => { p with x := p.x + p.vx * dt }).filter
    (fun p => decide (p.x > -PROJECTILE_SIZE))

def projectileHitsPlayer (pl : Player) (ps : List Projectile) : Bool :=
  ps.any fun p =>
    circleHit (pl.x + pl.width / 2 - (p.x + PROJECTILE_SIZE / 2))
      (pl.y + pl.height / 2 - (p.y + PROJECTILE_SIZE / 2))
      ((pl.width / 2 + PROJECTILE_SIZE / 2) * 0.8)

/-- Mega-boss fights: the player's auto-fire cooldown, arrow spawn, arrow
movement and off-screen filtering for one tick. -/
def stepArrows (env : Env) (dt : ℚ) (pl : Player) (arrows : List PlayerArrow)
    (cooldown : ℚ) : List PlayerArrow × ℚ :=
  let cd := cooldown - dt
  let spawned : List PlayerArrow :=
    if cd ≤ 0 then [⟨pl.x + pl.width, pl.y + pl.height / 2, ARROW_SPEED⟩] else []
  let cd' := if cd ≤ 0 then PLAYER_ARROW_INTERVAL else cd
  (((arrows ++ spawned).map fun a => { a with x := a.x + a.vx * dt }).filter
    (fun a => decide (a.x < env.w + ARROW_SIZE)), cd')

def arrowHitsBoss (bossSize : ℚ) (b : Boss) (a : PlayerArrow) : Bool :=
  circleHit (a.x - b.x) (a.y - b.y) (bossSize / 2 + ARROW_SIZE / 2)

/-- The arrow-boss collision loop walks the arrow array from its end and
splices out the first hit it finds, then stops; equivalently, remove the
last arrow satisfying the hit test, if any. -/
def removeLastHit {α : Type} (hit : α → Bool) : List α → Option (List α)
  | [] => none
  | a :: rest =>
    match removeLastHit hit rest with
    | some rest' => some (a :: rest')
    | none => if hit a then some rest else none

/-- The boss block of the playing branch. Returns the updated state and
whether the tick returned early (death or boss-defeat transition). -/
def bossPhase (env : Env) (dt : ℚ) (cfg : LevelConfig) (st : GameState)
    (b : Boss) : GameState × Bool :=
  let isMega : Bool := decide (3 ≤ st.level)
  let bossSize := if isMega then MEGA_BOSS_SIZE else BOSS_SIZE
  let b1 := bossUpdate env dt b
  let pl := advancePlayer isMega dt st.player
  let sh := bossShoot cfg isMega dt bossSize pl b1
  let b2 := sh.1
  let projs := moveProjectiles dt (st.projectiles ++ sh.2)
  if projectileHitsPlayer pl projs then
    (transitionScreen Screen.gameOver
      { st with
          player := pl
          boss := some b2
          projectiles := projs
          diedDuringBoss := true }, true)
  else if isMega then
    let ar := stepArrows env dt pl st.arrows st.arrowCooldown
    match removeLastHit (arrowHitsBoss bossSize b2) ar.1 with
    | some arrows3 =>
      let b3 := { b2 with health := b2.health - 1 }
      if b3.health ≤ 0 then
        (transitionScreen Screen.bossFreeze
          { st with
              player := pl
              boss := some b3
              projectiles := projs
              arrows := arrows3
              arrowCooldown := ar.2
              explodeTimer := 0
              explodePosX := b3.x
              explodePosY := b3.y }, true)
      else
        ({ st with
            player := pl
            boss := some b3
            projectiles := projs
            arrows := arrows3
            arrowCooldown := ar.2 }, false)
    | none =>
      ({ st with
          player := pl
          boss := some b2
          projectiles := projs
          arrows := ar.1
          arrowCooldown := ar.2 }, false)
  else
    if b2.x - bossSize / 2 ≤ pl.x + pl.width then
      (transitionScreen Screen.bossFreeze
        { st with
            player := pl
            boss := some b2
            projectiles := projs
            explodeTimer := 0
            explodePosX := b2.x
            explodePosY := b2.y }, true)
    else
      ({ st with
          player := pl
          boss := some b2
          projectiles := projs }, false)

/-- The player after gravity integration and wind forces of one tick. -/
def movedPlayer (env : Env) (cfg : LevelConfig) (dt : ℚ) (s : GameState) : Player :=
  applyWind dt (s.windZones.map (moveWindZone cfg dt)) (gravityStep env.phys dt s.player)

/-- The pillars after scroll and oscillation of one tick. -/
def movedPillars (env : Env) (cfg : LevelConfig) (dt : ℚ) (s : GameState) : List Pillar :=
  s.pillars.map (movePillar env cfg dt (s.frame + dt))

/-- The playing branch of gameLoop: physics, movement, wind, scoring,
collision and death checks, boss logic and level-complete check, in source
order with the source's early returns. -/
def playingTick (env : Env) (dt : ℚ) (cfg : LevelConfig) (s : GameState) : GameState :=
  let frame := s.frame + dt
  if s.hasFlapped then
    let pl1 := movedPlayer env cfg dt s
    let pillars1 := movedPillars env cfg dt s
    let hearts1 := s.hearts.map (moveHeart cfg dt)
    let wz1 := s.windZones.map (moveWindZone cfg dt)
    let pp := passPillars pl1 pillars1 s.score s.bestScore s.newHighScore
    let ch := collectHearts cfg pl1 hearts1 pp.2.1 pp.2.2.1 pp.2.2.2
    let base : GameState :=
      { s with
          frame := frame
          player := pl1
          pillars := pp.1
          hearts := ch.1
          windZones := wz1
          score := ch.2.1
          bestScore := ch.2.2.1
          newHighScore := ch.2.2.2 }
    if checkPillarCollision pl1 pp.1 then
      transitionScreen Screen.gameOver base
    else
      let pl2 := if pl1.y < 0 then { pl1 with y := 0, vy := 0 } else pl1
      let base2 := { base with player := pl2 }
      if env.h + PLAYER_SIZE < pl2.y + pl2.height then
        transitionScreen Screen.gameOver
          (if base2.boss.isSome then { base2 with diedDuringBoss := true } else base2)
      else
        let allPassed := pp.1.all (fun p => p.passed)
        if cfg.hasBoss = true ∧ allPassed = true ∧ base2.boss = none then
          { base2 with bossStartScore := base2.score, screen := Screen.bossIntro }
        else
          let bp :=
            match base2.boss with
            | some b => bossPhase env dt cfg base2 b
            | none => (base2, false)
          if bp.2 then bp.1
          else if cfg.hasBoss = false ∧ allPassed = true then
            transitionScreen Screen.levelComplete bp.1
          else bp.1
  else
    { s with
        frame := frame
        player := { s.player with y := s.player.y + env.sinq (frame * 0.05) * 0.3 } }

/-- The bossFreeze branch: advance the cinematic timer; after the still +
tremble + swell durations (mega variant longer), move to bossExplode. -/
def freezeTick (dt : ℚ) (s : GameState) : GameState :=
  let isMegaDeath : Bool := decide (3 ≤ s.level)
  let t := s.explodeTimer + dt
  let stillDuration : ℚ := if isMegaDeath then 180 else 150
  let trembleDuration : ℚ := if isMegaDeath then 330 else 250
  let swellDuration : ℚ := if isMegaDeath then 340 else 275
  let totalFreeze := stillDuration + trembleDuration + swellDuration
  if totalFreeze ≤ t then
    { s with explodeTimer := 0, screen := Screen.bossExplode }
  else
    { s with explodeTimer := t }

/-- The bossExplode branch: advance the explosion timer; when the duration
(mega variant longer) completes, transition to victory. -/
def explodeTick (dt : ℚ) (s : GameState) : GameState :=
  let isMegaExplode : Bool := decide (3 ≤ s.level)
  let t := s.explodeTimer + dt
  let duration : ℚ := if isMegaExplode then 430 else 350
  if duration ≤ t then
    transitionScreen Screen.victory { s with explodeTimer := t }
  else
    { s with explodeTimer := t }

/-- The countdown branch: an accumulated dt counter; every 60 units the
displayed count decrements, and at zero the screen becomes playing with the
has-flapped flag cleared. -/
def countdownTick (dt : ℚ) (s : GameState) : GameState :=
  let timer := s.countdownTimer + dt
  if 60 ≤ timer then
    let c := s.countdownVal - 1
    if c ≤ 0 then
      { s with
          countdownTimer := 0
          countdownVal := c
          hasFlapped := false
          screen := Screen.playing }
    else
      { s with countdownTimer := 0, countdownVal := c }
  else
    { s with countdownTimer := timer }

/-- One full gameLoop pass: dispatch on the screen captured at tick start.
The gameOver / levelComplete / victory / bossIntro branches only draw. -/
def tick (env : Env) (dt : ℚ) (s : GameState) : GameState :=
  let cfg := LEVELS.getD s.level cfg0
  match s.screen with
  | Screen.countdown => countdownTick dt s
  | Screen.bossIntro => s
  | Screen.playing => playingTick env dt cfg s
  | Screen.bossFreeze => freezeTick dt s
  | Screen.bossExplode => explodeTick dt s
  | Screen.gameOver => s
  | Screen.levelComplete => s
  | Screen.victory => s

def runTicks (env : Env) (dts : List ℚ) (s : GameState) : GameState :=
  dts.foldl (fun q d => tick env d q) s

/-- initLevel: reset the player and per-level entities. With bossRespawn on a
boss level, skip the pillars (all marked passed and moved to x = -100), clear
the hearts and spawn the boss at full health immediately; otherwise generate
pillars, hearts and wind zones afresh. resetScore restores the score to the
boss-encounter baseline on a boss respawn and to the level-start baseline
otherwise. -/
def initLevel (env : Env) (twoPi : ℚ) (rnd : ℕ → ℚ) (c : ℕ → ℕ) (rndW : ℕ → ℚ)
    (lvl : ℕ) (resetScore : Bool) (bossRespawn : Bool) (s : GameState) : GameState :=
  let cfg := LEVELS.getD lvl cfg0
  let s1 : GameState :=
    { s with
        player := ⟨80, env.h * 0.4, 0, PLAYER_SIZE, PLAYER_SIZE⟩
        projectiles := []
        arrows := []
        arrowCooldown := 0
        frame := 0
        hasFlapped := false
        diedDuringBoss := false
        newHighScore := false
        screen := Screen.countdown
        countdownVal := 3
        countdownTimer := 0 }
  let s2 : GameState :=
    if bossRespawn = true ∧ cfg.hasBoss = true then
      let isMega : Bool := decide (3 ≤ lvl)
      { s1 with
          pillars := s1.pillars.map (fun p => { p with passed := true, x := -100 })
          hearts := []
          boss := some ⟨env.w - 80, env.h / 2,
            (if isMega then MEGA_BOSS_HP else 1), (if isMega then MEGA_BOSS_HP else 1),
            0, 0, (if isMega then MEGA_BOSS_SHOOT_INTERVAL else BOSS_SHOOT_INTERVAL)⟩ }
    else
      let ps := generatePillars cfg env.h twoPi rnd
      { s1 with
          pillars := ps
          hearts := generateHearts ps cfg.heartCount c
          windZones := if cfg.hasWind then generateWindZones ps env.h twoPi rndW else []
          boss := none }
  if resetScore then
    { s2 with score := if bossRespawn then s.bossStartScore else s.levelStartScore }
  else
    { s2 with levelStartScore := s2.score }

/-- handleRetry: re-initialize the current level with resetScore, as a boss
respawn exactly when the death happened during a boss fight. -/
def handleRetry (env : Env) (twoPi : ℚ) (rnd : ℕ → ℚ) (c : ℕ → ℕ) (rndW : ℕ → ℚ)
    (s : GameState) : GameState :=
  initLevel env twoPi rnd c rndW s.level true s.diedDuringBoss s

/-! ## Helper lemmas about the tick pipeline -/

theorem passPillars_fst (pl : Player) :
    ∀ (ps : List Pillar) (score best : ℤ) (flag : Bool),
      (passPillars pl ps score best flag).1 =
        ps.map (fun p => if ¬ p.passed ∧ p.x + p.width < pl.x then
          { p with passed := true } else p) := by
  intro ps
  induction ps with
  | nil => intro score best flag; rfl
  | cons p rest ih =>
    intro score best flag
    by_cases h : ¬ p.passed ∧ p.x + p.width < pl.x
    · simp only [passPillars, if_pos h, List.map_cons, ih]
    · simp only [passPillars, if_neg h, List.map_cons, ih]

theorem pillarHit_mark (pl : Player) (p : Pillar) (c : Prop) [Decidable c] :
    pillarHit pl (if c then { p with passed := true } else p) = pillarHit pl p := by
  by_cases h : c <;> simp [h, pillarHit]

theorem checkPillarCollision_marked (pl : Player)
    (ps : List Pillar) (score best : ℤ) (flag : Bool) :
    checkPillarCollision pl (passPillars pl ps score best flag).1 =
      checkPillarCollision pl ps := by
  rw [passPillars_fst, checkPillarCollision, List.any_map, checkPillarCollision]
  congr 1
  funext p
  exact pillarHit_mark pl p _

/-- Claim C3: if the player dies while a boss entity exists (the code marks
this with the diedDuringBoss flag, set by the floor and projectile deaths
while a boss is present) and then requests a retry, the running score is
restored to the boss-encounter baseline (bossStartScore, captured when the
boss first appeared), the level is re-initialized with every normal obstacle
already marked passed and moved off-screen to x = -100 and with no
collectibles, and the boss respawns immediately at full health (3 for the
mega variant, 1 otherwise). -/
theorem c3_boss_retry (env : Env) (twoPi : ℚ) (rnd : ℕ → ℚ) (c : ℕ → ℕ)
    (rndW : ℕ → ℚ) (u : GameState)
    (hdied : u.diedDuringBoss = true)
    (hboss : (LEVELS.getD u.level cfg0).hasBoss = true) :
    (handleRetry env twoPi rnd c rndW u).score = u.bossStartScore ∧
    (handleRetry env twoPi rnd c rndW u).pillars =
      u.pillars.map (fun p => { p with passed := true, x := -100 }) ∧
    (∀ p ∈ (handleRetry env twoPi rnd c rndW u).pillars,
      p.passed = true ∧ p.x = -100 ∧ (p.width = PILLAR_WIDTH → p.x + p.width < 0)) ∧
    (handleRetry env twoPi rnd c rndW u).hearts = [] ∧
    ∃ b : Boss, (handleRetry env twoPi rnd c rndW u).boss = some b ∧
      b.health = b.maxHealth ∧
      b.maxHealth = (if 3 ≤ u.level then MEGA_BOSS_HP else 1) := by
  unfold handleRetry initLevel
  simp only [hdied, hboss, and_self, if_pos, if_true, true_and]
  refine ⟨?_, ?_⟩
  · intro p hp
    simp only [List.mem_map] at hp
    obtain ⟨q, -, hq⟩ := hp
    subst hq
    exact ⟨rfl, rfl, fun hw => by rw [hw]; norm_num [PILLAR_WIDTH]⟩
  · refine ⟨_, rfl, rfl, ?_⟩
    by_cases h3 : 3 ≤ u.level <;> simp [h3]

/-! ## Concrete states and environments for witnesses -/

/-- A desktop environment with a 700 x 500 canvas; Math.sin is modelled as
the zero function (its value is irrelevant to the properties checked). -/
def envD : Env := ⟨fun _ => 0, 700, 500, desktopPhys⟩

/-- A neutral baseline game state for concrete instantiations. -/
def sBase : GameState where
  screen := Screen.playing
  level := 0
  score := 0
  bestScore := 0
  newHighScore := false
  levelStartScore := 0
  bossStartScore := 0
  player := ⟨80, 200, 0, 32, 32⟩
  pillars := []
  hearts := []
  boss := none
  projectiles := []
  arrows := []
  arrowCooldown := 0
  windZones := []
  frame := 0
  hasFlapped := true
  diedDuringBoss := false
  explodeTimer := 0
  explodePosX := 0
  explodePosY := 0
  countdownVal := 3
  countdownTimer := 0

/-- Witness for C3 at a concrete input: death during the level-2 boss fight
with boss-encounter baseline 7; retry restores score 7, clears hearts and
respawns a full-health boss. -/
theorem c3_boss_retry_witness :
    (handleRetry envD 6 (fun _ => 1/2) (fun _ => 0) (fun _ => 1/2)
      { sBase with diedDuringBoss := true, level := 2, bossStartScore := 7, screen := Screen.gameOver }).score = 7 ∧
    (handleRetry envD 6 (fun _ => 1/2) (fun _ => 0) (fun _ => 1/2)
      { sBase with diedDuringBoss := true, level := 2, bossStartScore := 7, screen := Screen.gameOver }).hearts = [] ∧
    ∃ b : Boss,
      (handleRetry envD 6 (fun _ => 1/2) (fun _ => 0) (fun _ => 1/2)
        { sBase with diedDuringBoss := true, level := 2, bossStartScore := 7, screen := Screen.gameOver }).boss = some b ∧
      b.health = b.maxHealth := by
  have h := c3_boss_retry envD 6 (fun _ => 1/2) (fun _ => 0) (fun _ => 1/2)
    { sBase with diedDuringBoss := true, level := 2, bossStartScore := 7, screen := Screen.gameOver }
    rfl rfl
  obtain ⟨b, hb1, hb2, -⟩ := h.2.2.2.2
  exact ⟨h.1, h.2.2.2.1, b, hb1, hb2⟩

theorem transitionScreen_screen (t : Screen) (s : GameState) :
    (transitionScreen t s).screen = t := rfl

theorem transitionScreen_player (t : Screen) (s : GameState) :
    (transitionScreen t s).player = s.player := rfl

theorem transitionScreen_diedDuringBoss (t : Screen) (s : GameState) :
    (transitionScreen t s).diedDuringBoss = s.diedDuringBoss := rfl

theorem transitionScreen_level (t : Screen) (s : GameState) :
    (transitionScreen t s).level = s.level := rfl

/-- applyWind only changes the vertical velocity. -/
theorem applyWind_eq (dt : ℚ) :
    ∀ (zones : List WindZone) (pl : Player),
      ∃ v : ℚ, applyWind dt zones pl = { pl with vy := v } := by
  intro zones
  induction zones with
  | nil => intro pl; exact ⟨pl.vy, rfl⟩
  | cons wz rest ih =>
    intro pl
    show ∃ v, applyWind dt rest
      (if wz.x < pl.x + pl.width / 2 ∧ pl.x + pl.width / 2 < wz.x + wz.width ∧
          wz.y < pl.y + pl.height / 2 ∧ pl.y + pl.height / 2 < wz.y + wz.height then
        { pl with vy := pl.vy + wz.force * dt } else pl) = { pl with vy := v }
    by_cases h : wz.x < pl.x + pl.width / 2 ∧ pl.x + pl.width / 2 < wz.x + wz.width ∧
        wz.y < pl.y + pl.height / 2 ∧ pl.y + pl.height / 2 < wz.y + wz.height
    · rw [if_pos h]
      obtain ⟨v, hv⟩ := ih { pl with vy := pl.vy + wz.force * dt }
      exact ⟨v, hv⟩
    · rw [if_neg h]
      exact ih pl

theorem movedPlayer_shape (env : Env) (cfg : LevelConfig) (dt : ℚ) (s : GameState) :
    ∃ yv : ℚ × ℚ, movedPlayer env cfg dt s =
      { s.player with y := yv.1, vy := yv.2 } := by
  unfold movedPlayer
  obtain ⟨v, hv⟩ := applyWind_eq dt (s.windZones.map (moveWindZone cfg dt))
    (gravityStep env.phys dt s.player)
  rw [hv]
  exact ⟨((gravityStep env.phys dt s.player).y, v), rfl⟩

theorem movedPlayer_x (env : Env) (cfg : LevelConfig) (dt : ℚ) (s : GameState) :
    (movedPlayer env cfg dt s).x = s.player.x := by
  obtain ⟨yv, h⟩ := movedPlayer_shape env cfg dt s
  rw [h]

theorem movedPlayer_width (env : Env) (cfg : LevelConfig) (dt : ℚ) (s : GameState) :
    (movedPlayer env cfg dt s).width = s.player.width := by
  obtain ⟨yv, h⟩ := movedPlayer_shape env cfg dt s
  rw [h]

theorem movedPlayer_height (env : Env) (cfg : LevelConfig) (dt : ℚ) (s : GameState) :
    (movedPlayer env cfg dt s).height = s.player.height := by
  obtain ⟨yv, h⟩ := movedPlayer_shape env cfg dt s
  rw [h]

theorem playingTick_collision (env : Env) (dt : ℚ) (cfg : LevelConfig) (s : GameState)
    (hf : s.hasFlapped = true)
    (hc : checkPillarCollision (movedPlayer env cfg dt s) (movedPillars env cfg dt s) = true) :
    (playingTick env dt cfg s).screen = Screen.gameOver ∧
    (playingTick env dt cfg s).diedDuringBoss = s.diedDuringBoss := by
  simp only [playingTick, hf, checkPillarCollision_marked, hc, if_true]
  exact ⟨rfl, rfl⟩
theorem playingTick_ceiling (env : Env) (dt : ℚ) (cfg : LevelConfig) (s : GameState)
    (hscr : s.screen = Screen.playing)
    (hf : s.hasFlapped = true)
    (hc : checkPillarCollision (movedPlayer env cfg dt s) (movedPillars env cfg dt s) = false)
    (hy : (movedPlayer env cfg dt s).y < 0)
    (hh : s.player.height = PLAYER_SIZE)
    (h0 : 0 ≤ env.h)
    (hbn : s.boss = none) :
    (playingTick env dt cfg s).player.y = 0 ∧
    (playingTick env dt cfg s).player.vy = 0 ∧
    (playingTick env dt cfg s).screen ≠ Screen.gameOver := by
  have hflr : ¬ (env.h + PLAYER_SIZE < (0:ℚ) + (movedPlayer env cfg dt s).height) := by
    rw [movedPlayer_height, hh]
    push_neg
    linarith
  simp only [playingTick, hf, checkPillarCollision_marked, hc, Bool.false_eq_true,
    if_false, if_true, if_pos hy]
  rw [if_neg hflr]
  simp only [hbn, hscr]
  split_ifs <;> refine ⟨rfl, rfl, fun hgo => ?_⟩ <;>
    simp only [transitionScreen_screen, hscr] at hgo <;>
    exact Screen.noConfusion hgo
theorem playingTick_floor (env : Env) (dt : ℚ) (cfg : LevelConfig) (s : GameState)
    (hf : s.hasFlapped = true)
    (hc : checkPillarCollision (movedPlayer env cfg dt s) (movedPillars env cfg dt s) = false)
    (hy : ¬ ((movedPlayer env cfg dt s).y < 0))
    (hfl : env.h + PLAYER_SIZE <
      (movedPlayer env cfg dt s).y + (movedPlayer env cfg dt s).height) :
    (playingTick env dt cfg s).screen = Screen.gameOver ∧
    (s.boss.isSome = true → (playingTick env dt cfg s).diedDuringBoss = true) := by
  simp only [playingTick, hf, checkPillarCollision_marked, hc, Bool.false_eq_true, if_false,
    if_neg hy, if_pos hfl]
  constructor
  · rfl
  · intro hb
    simp only [hb, if_true]
    rfl
theorem tick_playing (env : Env) (dt : ℚ) (s : GameState)
    (hscr : s.screen = Screen.playing) :
    tick env dt s = playingTick env dt (LEVELS.getD s.level cfg0) s := by
  unfold tick
  rw [hscr]

theorem tick_gameOver_frozen (env : Env) (dt : ℚ) (s : GameState)
    (hscr : s.screen = Screen.gameOver) :
    tick env dt s = s := by
  unfold tick
  rw [hscr]
/-- Claim C7: during a playing tick the death checks run in priority order
obstacle collision first (an obstacle death leaves the diedDuringBoss flag
untouched even if the floor condition also holds), and touching the ceiling
is never lethal: when the integrated position is above the top, the position
is clamped to 0 and the vertical velocity zeroed while play continues (the
resulting screen is never gameOver); the floor is lethal exactly via the
condition that the player has fallen fully below the canvas
(y + height beyond canvasHeight + PLAYER_SIZE), transitioning to gameOver;
and on the gameOver screen the simulation is frozen: a tick is the identity
until an explicit retry. -/
theorem c7_death_checks_order (env : Env) (dt : ℚ) (s : GameState)
    (hscr : s.screen = Screen.playing) (hf : s.hasFlapped = true) :
    (checkPillarCollision (movedPlayer env (LEVELS.getD s.level cfg0) dt s)
        (movedPillars env (LEVELS.getD s.level cfg0) dt s) = true →
      (tick env dt s).screen = Screen.gameOver ∧
      (tick env dt s).diedDuringBoss = s.diedDuringBoss) ∧
    (checkPillarCollision (movedPlayer env (LEVELS.getD s.level cfg0) dt s)
        (movedPillars env (LEVELS.getD s.level cfg0) dt s) = false →
      (movedPlayer env (LEVELS.getD s.level cfg0) dt s).y < 0 →
      s.player.height = PLAYER_SIZE → 0 ≤ env.h → s.boss = none →
      (tick env dt s).player.y = 0 ∧ (tick env dt s).player.vy = 0 ∧
      (tick env dt s).screen ≠ Screen.gameOver) ∧
    (checkPillarCollision (movedPlayer env (LEVELS.getD s.level cfg0) dt s)
        (movedPillars env (LEVELS.getD s.level cfg0) dt s) = false →
      ¬ ((movedPlayer env (LEVELS.getD s.level cfg0) dt s).y < 0) →
      env.h + PLAYER_SIZE < (movedPlayer env (LEVELS.getD s.level cfg0) dt s).y +
        (movedPlayer env (LEVELS.getD s.level cfg0) dt s).height →
      (tick env dt s).screen = Screen.gameOver) ∧
    (∀ u : GameState, u.screen = Screen.gameOver → tick env dt u = u) := by
  rw [tick_playing env dt s hscr]
  refine ⟨?_, ?_, ?_, ?_⟩
  · intro hc
    exact playingTick_collision env dt _ s hf hc
  · intro hc hy hh h0 hbn
    exact playingTick_ceiling env dt _ s hscr hf hc hy hh h0 hbn
  · intro hc hy hfl
    exact (playingTick_floor env dt _ s hf hc hy hfl).1
  · intro u hu
    exact tick_gameOver_frozen env dt u hu
/-- Witness for C7 at concrete inputs: an overlapping pillar kills via the
obstacle check, a ceiling touch clamps without death, a fall below the canvas
kills via the floor check, and the gameOver screen is frozen. -/
theorem c7_death_checks_order_witness :
    (tick envD 0 { sBase with pillars := [⟨100, 400, 100, 52, false, 0⟩] }).screen
        = Screen.gameOver ∧
    ((tick envD 1 { sBase with player := ⟨80, 5, -10, 32, 32⟩ }).player.y = 0 ∧
     (tick envD 1 { sBase with player := ⟨80, 5, -10, 32, 32⟩ }).player.vy = 0) ∧
    (tick envD 0 { sBase with player := ⟨80, 600, 0, 32, 32⟩ }).screen = Screen.gameOver ∧
    tick envD 0 { sBase with screen := Screen.gameOver }
      = { sBase with screen := Screen.gameOver } := by
  refine ⟨?_, ?_, ?_, ?_⟩
  · refine ((c7_death_checks_order envD 0
      { sBase with pillars := [⟨100, 400, 100, 52, false, 0⟩] } rfl rfl).1 ?_).1
    norm_num [checkPillarCollision, pillarHit, movedPlayer, movedPillars, movePillar,
      gravityStep, applyWind, sBase, envD, desktopPhys, LEVELS, cfg0, HITBOX_INSET,
      GRAVITY, PLAYER_SIZE]
  · have h := ((c7_death_checks_order envD 1
      { sBase with player := ⟨80, 5, -10, 32, 32⟩ } rfl rfl).2.1
      (by norm_num [checkPillarCollision, movedPillars, sBase])
      (by norm_num [movedPlayer, gravityStep, applyWind, sBase, envD, desktopPhys, GRAVITY])
      rfl (by norm_num [envD]) rfl)
    exact ⟨h.1, h.2.1⟩
  · exact ((c7_death_checks_order envD 0
      { sBase with player := ⟨80, 600, 0, 32, 32⟩ } rfl rfl).2.2.1
      (by norm_num [checkPillarCollision, movedPillars, sBase])
      (by norm_num [movedPlayer, gravityStep, applyWind, sBase, envD, desktopPhys, GRAVITY])
      (by norm_num [movedPlayer, gravityStep, applyWind, sBase, envD, desktopPhys, GRAVITY,
        PLAYER_SIZE]))
  · exact ((c7_death_checks_order envD 0 sBase rfl rfl).2.2.2
      { sBase with screen := Screen.gameOver } rfl)
/-- Claim C6: a player whose 6-pixel-inset hitbox is exactly tangent to a
pillar edge with zero overlap (horizontally at the pillar's left edge, or
vertically at the gap top or gap bottom) does not register a collision, while
any strictly positive overlap of the inset hitbox with the solid part of a
horizontally overlapping pillar does register a collision, and such a
collision transitions the playing tick to gameOver. -/
theorem c6_tangent_hitbox_boundary :
    (∀ (pl : Player) (p : Pillar), pl.x + pl.width - HITBOX_INSET = p.x →
      pillarHit pl p = false) ∧
    (∀ (pl : Player) (p : Pillar), pl.y + HITBOX_INSET = p.gapY - p.gapSize / 2 →
      pl.y + pl.height - HITBOX_INSET ≤ p.gapY + p.gapSize / 2 →
      pillarHit pl p = false) ∧
    (∀ (pl : Player) (p : Pillar), pl.y + pl.height - HITBOX_INSET = p.gapY + p.gapSize / 2 →
      p.gapY - p.gapSize / 2 ≤ pl.y + HITBOX_INSET →
      pillarHit pl p = false) ∧
    (∀ (pl : Player) (p : Pillar), p.x < pl.x + pl.width - HITBOX_INSET →
      pl.x + HITBOX_INSET < p.x + p.width →
      (pl.y + HITBOX_INSET < p.gapY - p.gapSize / 2 ∨
        p.gapY + p.gapSize / 2 < pl.y + pl.height - HITBOX_INSET) →
      pillarHit pl p = true) ∧
    (∀ (env : Env) (dt : ℚ) (s : GameState), s.screen = Screen.playing →
      s.hasFlapped = true →
      checkPillarCollision (movedPlayer env (LEVELS.getD s.level cfg0) dt s)
        (movedPillars env (LEVELS.getD s.level cfg0) dt s) = true →
      (tick env dt s).screen = Screen.gameOver) := by
  refine ⟨?_, ?_, ?_, ?_, ?_⟩
  · intro pl p h
    have h1 : ¬ (p.x < pl.x + pl.width - HITBOX_INSET) := by rw [h]; exact lt_irrefl _
    simp [pillarHit, h1]
  · intro pl p h h2
    have h3 : ¬ (pl.y + HITBOX_INSET < p.gapY - p.gapSize / 2) := by
      rw [h]; exact lt_irrefl _
    have h4 : ¬ (p.gapY + p.gapSize / 2 < pl.y + pl.height - HITBOX_INSET) := not_lt.mpr h2
    simp [pillarHit, h3, h4]
  · intro pl p h h2
    have h3 : ¬ (p.gapY + p.gapSize / 2 < pl.y + pl.height - HITBOX_INSET) := by
      rw [h]; exact lt_irrefl _
    have h4 : ¬ (pl.y + HITBOX_INSET < p.gapY - p.gapSize / 2) := not_lt.mpr h2
    simp [pillarHit, h3, h4]
  · intro pl p h1 h2 h3
    rcases h3 with h3 | h3 <;> simp [pillarHit, h1, h2, h3]
  · intro env dt s hscr hf hc
    rw [tick_playing env dt s hscr]
    exact (playingTick_collision env dt _ s hf hc).1

/-- Witness for C6 at concrete inputs: tangency at the pillar's left edge, at
the gap top and at the gap bottom produce no hit; a 6-inset overlap produces a
hit and the playing tick lands on gameOver. -/
theorem c6_tangent_hitbox_boundary_witness :
    pillarHit ⟨80, 200, 0, 32, 32⟩ ⟨106, 250, 100, 52, false, 0⟩ = false ∧
    pillarHit ⟨80, 200, 0, 32, 32⟩ ⟨100, 256, 100, 52, false, 0⟩ = false ∧
    pillarHit ⟨80, 200, 0, 32, 32⟩ ⟨100, 176, 100, 52, false, 0⟩ = false ∧
    pillarHit ⟨80, 200, 0, 32, 32⟩ ⟨100, 400, 100, 52, false, 0⟩ = true ∧
    (tick envD 1 { sBase with pillars := [⟨100, 400, 100, 52, false, 0⟩] }).screen
      = Screen.gameOver := by
  refine ⟨?_, ?_, ?_, ?_, ?_⟩
  · exact c6_tangent_hitbox_boundary.1 _ _ (by norm_num [HITBOX_INSET])
  · exact c6_tangent_hitbox_boundary.2.1 _ _ (by norm_num [HITBOX_INSET])
      (by norm_num [HITBOX_INSET])
  · exact c6_tangent_hitbox_boundary.2.2.1 _ _ (by norm_num [HITBOX_INSET])
      (by norm_num [HITBOX_INSET])
  · exact c6_tangent_hitbox_boundary.2.2.2.1 _ _ (by norm_num [HITBOX_INSET])
      (by norm_num [HITBOX_INSET]) (Or.inl (by norm_num [HITBOX_INSET]))
  · exact c6_tangent_hitbox_boundary.2.2.2.2 envD 1
      { sBase with pillars := [⟨100, 400, 100, 52, false, 0⟩] } rfl rfl
      (by norm_num [checkPillarCollision, pillarHit, movedPlayer, movedPillars, movePillar,
        gravityStep, applyWind, sBase, envD, desktopPhys, LEVELS, cfg0, HITBOX_INSET,
        GRAVITY, PLAYER_SIZE])
theorem bossUpdate_health (env : Env) (dt : ℚ) (b : Boss) :
    (bossUpdate env dt b).health = b.health := rfl

theorem bossUpdate_maxHealth (env : Env) (dt : ℚ) (b : Boss) :
    (bossUpdate env dt b).maxHealth = b.maxHealth := rfl

theorem bossUpdate_x (env : Env) (dt : ℚ) (b : Boss) :
    (bossUpdate env dt b).x = b.x := rfl

theorem bossShoot_health (cfg : LevelConfig) (im : Bool) (dt sz : ℚ) (pl : Player)
    (b : Boss) : (bossShoot cfg im dt sz pl b).1.health = b.health := by
  unfold bossShoot
  dsimp only
  split_ifs <;> rfl

theorem bossShoot_maxHealth (cfg : LevelConfig) (im : Bool) (dt sz : ℚ) (pl : Player)
    (b : Boss) : (bossShoot cfg im dt sz pl b).1.maxHealth = b.maxHealth := by
  unfold bossShoot
  dsimp only
  split_ifs <;> rfl

theorem bossShoot_x (cfg : LevelConfig) (im : Bool) (dt sz : ℚ) (pl : Player)
    (b : Boss) : (bossShoot cfg im dt sz pl b).1.x = b.x := by
  unfold bossShoot
  dsimp only
  split_ifs <;> rfl

theorem removeLastHit_length {α : Type} (hit : α → Bool) :
    ∀ (l l' : List α), removeLastHit hit l = some l' → l'.length + 1 = l.length := by
  intro l
  induction l with
  | nil => intro l' h; simp [removeLastHit] at h
  | cons a rest ih =>
    intro l' h
    unfold removeLastHit at h
    cases hr : removeLastHit hit rest with
    | some rest' =>
      rw [hr] at h
      cases h
      have := ih rest' hr
      simp only [List.length_cons]
      omega
    | none =>
      rw [hr] at h
      by_cases ha : hit a = true
      · rw [if_pos ha] at h
        cases h
        simp
      · rw [if_neg ha] at h
        cases h
theorem playingTick_mega_arrow_hit (env : Env) (dt : ℚ) (cfg : LevelConfig)
    (s : GameState) (b : Boss) (l : List PlayerArrow)
    (hf : s.hasFlapped = true)
    (hc : checkPillarCollision (movedPlayer env cfg dt s) (movedPillars env cfg dt s) = false)
    (hy : ¬ ((movedPlayer env cfg dt s).y < 0))
    (hfl : ¬ (env.h + PLAYER_SIZE <
      (movedPlayer env cfg dt s).y + (movedPlayer env cfg dt s).height))
    (hboss : s.boss = some b)
    (hlvl : 3 ≤ s.level)
    (hcfgb : cfg.hasBoss = true)
    (hproj : projectileHitsPlayer (movedPlayer env cfg dt s)
      (moveProjectiles dt (s.projectiles ++
        (bossShoot cfg true dt MEGA_BOSS_SIZE (movedPlayer env cfg dt s)
          (bossUpdate env dt b)).2)) = false)
    (hhit : removeLastHit (arrowHitsBoss MEGA_BOSS_SIZE
        ((bossShoot cfg true dt MEGA_BOSS_SIZE (movedPlayer env cfg dt s)
          (bossUpdate env dt b)).1))
      (stepArrows env dt (movedPlayer env cfg dt s) s.arrows s.arrowCooldown).1 = some l) :
    ∃ b' : Boss, (playingTick env dt cfg s).boss = some b' ∧
      b'.health = b.health - 1 ∧ b'.maxHealth = b.maxHealth ∧
      (playingTick env dt cfg s).arrows = l ∧
      (b.health ≤ 1 → (playingTick env dt cfg s).screen = Screen.bossFreeze) ∧
      (1 < b.health → (playingTick env dt cfg s).screen = s.screen) := by
  have hm : decide (3 ≤ s.level) = true := decide_eq_true hlvl
  simp only [playingTick, hf, checkPillarCollision_marked, hc, Bool.false_eq_true, if_false,
    if_true, if_neg hy, if_neg hfl, hboss, reduceCtorEq, and_false, hcfgb]
  simp only [bossPhase, hm, advancePlayer, if_true]
  simp only [hproj, Bool.false_eq_true, if_false, hhit]
  rw [bossShoot_health, bossUpdate_health]
  by_cases hd : b.health - 1 ≤ 0
  · rw [if_pos hd]
    refine ⟨_, rfl, ?_, ?_, ?_, ?_, ?_⟩
    · simp [bossShoot_health, bossUpdate_health]
    · simp [bossShoot_maxHealth, bossUpdate_maxHealth]
    · trivial
    · intro hx
      rfl
    · intro hx
      omega
  · rw [if_neg hd]
    simp only [Bool.false_eq_true, if_false, reduceCtorEq, false_and, and_false]
    refine ⟨_, rfl, ?_, ?_, ?_, ?_, ?_⟩
    · simp [bossShoot_health, bossUpdate_health]
    · simp [bossShoot_maxHealth, bossUpdate_maxHealth]
    · trivial
    · intro hx
      omega
    · intro hx
      trivial
theorem bossPhase_mega_cases (env : Env) (dt : ℚ) (cfg : LevelConfig)
    (st : GameState) (b : Boss) (hlvl3 : 3 ≤ st.level) :
    ∃ b', (bossPhase env dt cfg st b).1.boss = some b' ∧
      b.health - 1 ≤ b'.health ∧ b'.health ≤ b.health ∧
      ((bossPhase env dt cfg st b).1.screen = st.screen ∨
       (bossPhase env dt cfg st b).1.screen = Screen.gameOver ∨
       (bossPhase env dt cfg st b).1.screen = Screen.bossFreeze) ∧
      ((bossPhase env dt cfg st b).1.screen = Screen.bossFreeze →
        st.screen = Screen.bossFreeze ∨ b.health ≤ 1) := by
  have hm : decide (3 ≤ st.level) = true := decide_eq_true hlvl3
  have hh := bossShoot_health cfg true dt MEGA_BOSS_SIZE st.player (bossUpdate env dt b)
  rw [bossUpdate_health] at hh
  simp only [bossPhase, hm, if_true, advancePlayer]
  split_ifs with h1 h2
  · exact ⟨_, rfl, by omega, by omega, Or.inr (Or.inl rfl),
      fun hcon => Screen.noConfusion hcon⟩
  · cases hrm : removeLastHit
        (arrowHitsBoss MEGA_BOSS_SIZE
          (bossShoot cfg true dt MEGA_BOSS_SIZE st.player (bossUpdate env dt b)).1)
        (stepArrows env dt st.player st.arrows st.arrowCooldown).1 with
    | none =>
      simp only [hrm]
      refine ⟨_, rfl, ?_, ?_, ?_, ?_⟩ <;>
        first
          | trivial
          | omega
          | (dsimp only; omega)
          | exact Or.inl trivial
          | exact Or.inl rfl
          | exact Or.inr (Or.inl rfl)
          | exact Or.inr (Or.inr rfl)
          | exact Or.inr (by omega)
          | exact fun hcon => Or.inl hcon
          | (intro hcon; first | exact Or.inl hcon | exact Or.inr (by omega) | omega | trivial)
    | some l =>
      simp only [hrm]
      refine ⟨_, rfl, ?_, ?_, ?_, ?_⟩ <;>
        first
          | trivial
          | omega
          | (dsimp only; omega)
          | exact Or.inl trivial
          | exact Or.inl rfl
          | exact Or.inr (Or.inl rfl)
          | exact Or.inr (Or.inr rfl)
          | exact Or.inr (by omega)
          | exact fun hcon => Or.inl hcon
          | (intro hcon; first | exact Or.inl hcon | exact Or.inr (by omega) | omega | trivial)
  · cases hrm : removeLastHit
        (arrowHitsBoss MEGA_BOSS_SIZE
          (bossShoot cfg true dt MEGA_BOSS_SIZE st.player (bossUpdate env dt b)).1)
        (stepArrows env dt st.player st.arrows st.arrowCooldown).1 with
    | none =>
      simp only [hrm]
      refine ⟨_, rfl, ?_, ?_, ?_, ?_⟩ <;>
        first
          | trivial
          | omega
          | (dsimp only; omega)
          | exact Or.inl trivial
          | exact Or.inl rfl
          | exact Or.inr (Or.inl rfl)
          | exact Or.inr (Or.inr rfl)
          | exact Or.inr (by omega)
          | exact fun hcon => Or.inl hcon
          | (intro hcon; first | exact Or.inl hcon | exact Or.inr (by omega) | omega | trivial)
    | some l =>
      simp only [hrm]
      refine ⟨_, rfl, ?_, ?_, ?_, ?_⟩ <;>
        first
          | trivial
          | omega
          | (dsimp only; omega)
          | exact Or.inl trivial
          | exact Or.inl rfl
          | exact Or.inr (Or.inl rfl)
          | exact Or.inr (Or.inr rfl)
          | exact Or.inr (by omega)
          | exact fun hcon => Or.inl hcon
          | (intro hcon; first | exact Or.inl hcon | exact Or.inr (by omega) | omega | trivial)

theorem playingTick_mega_tick_cases (env : Env) (dt : ℚ) (cfg : LevelConfig)
    (s : GameState) (b : Boss)
    (hboss : s.boss = some b) (hlvl : 3 ≤ s.level) (hcfgb : cfg.hasBoss = true) :
    ∃ b', (playingTick env dt cfg s).boss = some b' ∧
      b.health - 1 ≤ b'.health ∧ b'.health ≤ b.health ∧
      ((playingTick env dt cfg s).screen = s.screen ∨
       (playingTick env dt cfg s).screen = Screen.gameOver ∨
       (playingTick env dt cfg s).screen = Screen.bossFreeze) ∧
      ((playingTick env dt cfg s).screen = Screen.bossFreeze →
        s.screen = Screen.bossFreeze ∨ b.health ≤ 1) := by
  simp only [playingTick, hboss, reduceCtorEq, and_false, if_false, hcfgb,
    Bool.true_eq_false, false_and]
  split_ifs <;>
    first
      | exact ⟨b, rfl, by omega, by omega, Or.inl rfl, fun hcon => Or.inl hcon⟩
      | exact ⟨b, rfl, by omega, by omega, Or.inr (Or.inl rfl),
          fun hcon => Screen.noConfusion hcon⟩
      | exact bossPhase_mega_cases env dt cfg _ b hlvl

theorem freezeTick_spec (dt : ℚ) (s : GameState)
    (hscr : s.screen = Screen.bossFreeze) :
    (freezeTick dt s).boss = s.boss ∧ (freezeTick dt s).level = s.level ∧
    ((freezeTick dt s).screen = Screen.bossFreeze ∨
     (freezeTick dt s).screen = Screen.bossExplode) ∧
    ((freezeTick dt s).screen = Screen.bossExplode ↔
      (if 3 ≤ s.level then (850:ℚ) else 675) ≤ s.explodeTimer + dt) := by
  by_cases hm3 : 3 ≤ s.level <;>
    simp only [freezeTick, hm3, if_true, if_false] <;>
    simp [hm3] <;>
    split_ifs with hcut <;>
    norm_num at hcut <;>
    refine ⟨rfl, rfl, ?_, ?_⟩
  · exact Or.inr rfl
  · exact ⟨fun _ => by linarith, fun _ => rfl⟩
  · rw [hscr]
    exact Or.inl rfl
  · rw [hscr]
    exact ⟨fun hcon => Screen.noConfusion hcon, fun hge => absurd hge (by linarith)⟩
  · exact Or.inr rfl
  · exact ⟨fun _ => by linarith, fun _ => rfl⟩
  · rw [hscr]
    exact Or.inl rfl
  · rw [hscr]
    exact ⟨fun hcon => Screen.noConfusion hcon, fun hge => absurd hge (by linarith)⟩

theorem explodeTick_spec (dt : ℚ) (s : GameState)
    (hscr : s.screen = Screen.bossExplode) :
    (explodeTick dt s).boss = s.boss ∧ (explodeTick dt s).level = s.level ∧
    ((explodeTick dt s).screen = Screen.bossExplode ∨
     (explodeTick dt s).screen = Screen.victory) ∧
    ((explodeTick dt s).screen = Screen.victory ↔
      (if 3 ≤ s.level then (430:ℚ) else 350) ≤ s.explodeTimer + dt) := by
  by_cases hm3 : 3 ≤ s.level <;>
    simp only [explodeTick, hm3, if_true, if_false] <;>
    simp [hm3, transitionScreen] <;>
    split_ifs with hcut <;>
    norm_num at hcut <;>
    refine ⟨rfl, rfl, ?_, ?_⟩
  · exact Or.inr rfl
  · exact ⟨fun _ => by linarith, fun _ => rfl⟩
  · rw [hscr]
    exact Or.inl rfl
  · rw [hscr]
    exact ⟨fun hcon => Screen.noConfusion hcon, fun hge => absurd hge (by linarith)⟩
  · exact Or.inr rfl
  · exact ⟨fun _ => by linarith, fun _ => rfl⟩
  · rw [hscr]
    exact Or.inl rfl
  · rw [hscr]
    exact ⟨fun hcon => Screen.noConfusion hcon, fun hge => absurd hge (by linarith)⟩
theorem playingTick_boss_reach (env : Env) (dt : ℚ) (cfg : LevelConfig)
    (s : GameState) (b : Boss)
    (hf : s.hasFlapped = true)
    (hc : checkPillarCollision (movedPlayer env cfg dt s) (movedPillars env cfg dt s) = false)
    (hy : ¬ ((movedPlayer env cfg dt s).y < 0))
    (hfl : ¬ (env.h + PLAYER_SIZE <
      (movedPlayer env cfg dt s).y + (movedPlayer env cfg dt s).height))
    (hboss : s.boss = some b)
    (hlvl : s.level < 3)
    (hproj : projectileHitsPlayer (advancePlayer false dt (movedPlayer env cfg dt s))
      (moveProjectiles dt (s.projectiles ++
        (bossShoot cfg false dt BOSS_SIZE (advancePlayer false dt (movedPlayer env cfg dt s))
          (bossUpdate env dt b)).2)) = false)
    (hreach : (bossShoot cfg false dt BOSS_SIZE
        (advancePlayer false dt (movedPlayer env cfg dt s)) (bossUpdate env dt b)).1.x
        - BOSS_SIZE / 2 ≤ (advancePlayer false dt (movedPlayer env cfg dt s)).x +
          (advancePlayer false dt (movedPlayer env cfg dt s)).width) :
    (playingTick env dt cfg s).screen = Screen.bossFreeze := by
  have hm : decide (3 ≤ s.level) = false := by
    simp only [decide_eq_false_iff_not, not_le]
    exact hlvl
  simp only [playingTick, hf, checkPillarCollision_marked, hc, Bool.false_eq_true, if_false,
    if_true, if_neg hy, if_neg hfl, hboss, reduceCtorEq, and_false]
  simp only [bossPhase, hm, Bool.false_eq_true, if_false]
  simp only [hproj, Bool.false_eq_true, if_false, if_pos hreach]
  rfl

theorem tick_bossFreeze (env : Env) (dt : ℚ) (s : GameState)
    (hscr : s.screen = Screen.bossFreeze) :
    tick env dt s = freezeTick dt s := by
  unfold tick
  rw [hscr]

theorem tick_bossExplode (env : Env) (dt : ℚ) (s : GameState)
    (hscr : s.screen = Screen.bossExplode) :
    tick env dt s = explodeTick dt s := by
  unfold tick
  rw [hscr]

/-- Claim C2, counterexample to the claim as stated: defeating the level-2
(regular) boss is not the final level of a boss chain (level 3 also has a
boss and is reachable as a bonus level), yet when the explosion timer
completes the screen becomes victory, never levelComplete and never an
automatic next boss level. -/
theorem c2_explode_goes_to_victory_not_levelComplete :
    (LEVELS.getD 3 cfg0).hasBoss = true ∧ 2 + 1 < LEVELS.length ∧
    (tick envD 1 { sBase with screen := Screen.bossExplode, level := 2, explodeTimer := 350 }).screen = Screen.victory ∧
    ¬ ((tick envD 1 { sBase with screen := Screen.bossExplode, level := 2, explodeTimer := 350 }).screen = Screen.levelComplete) := by
  have ht := tick_bossExplode envD 1
    { sBase with screen := Screen.bossExplode, level := 2, explodeTimer := 350 } rfl
  rw [ht]
  refine ⟨rfl, by norm_num [LEVELS], ?_, ?_⟩
  · norm_num [explodeTick, sBase, transitionScreen, updateBest]
  · norm_num [explodeTick, sBase, transitionScreen, updateBest]
    decide

/-- Claim C2 (amended): whenever a boss's defeat condition is satisfied during
the playing screen (the player's leading edge reaching the regular boss's
left edge, or the mega boss's health reaching zero on an arrow hit), the tick
transitions playing to bossFreeze; from bossFreeze the only transition is to
bossExplode, exactly when the cinematic timer completes; and from bossExplode
the only transition is to victory (for every boss level, not only the final
one of a chain), exactly when the explosion timer completes; no gameOver and
no levelComplete occurs anywhere in the sequence. -/
theorem c2_boss_defeat_screen_sequence :
    (∀ (env : Env) (dt : ℚ) (s : GameState) (b : Boss),
      s.screen = Screen.playing → s.hasFlapped = true →
      checkPillarCollision (movedPlayer env (LEVELS.getD s.level cfg0) dt s)
        (movedPillars env (LEVELS.getD s.level cfg0) dt s) = false →
      ¬ ((movedPlayer env (LEVELS.getD s.level cfg0) dt s).y < 0) →
      ¬ (env.h + PLAYER_SIZE < (movedPlayer env (LEVELS.getD s.level cfg0) dt s).y +
        (movedPlayer env (LEVELS.getD s.level cfg0) dt s).height) →
      s.boss = some b → s.level < 3 →
      projectileHitsPlayer
        (advancePlayer false dt (movedPlayer env (LEVELS.getD s.level cfg0) dt s))
        (moveProjectiles dt (s.projectiles ++
          (bossShoot (LEVELS.getD s.level cfg0) false dt BOSS_SIZE
            (advancePlayer false dt (movedPlayer env (LEVELS.getD s.level cfg0) dt s))
            (bossUpdate env dt b)).2)) = false →
      (bossShoot (LEVELS.getD s.level cfg0) false dt BOSS_SIZE
          (advancePlayer false dt (movedPlayer env (LEVELS.getD s.level cfg0) dt s))
          (bossUpdate env dt b)).1.x - BOSS_SIZE / 2 ≤
        (advancePlayer false dt (movedPlayer env (LEVELS.getD s.level cfg0) dt s)).x +
        (advancePlayer false dt (movedPlayer env (LEVELS.getD s.level cfg0) dt s)).width →
      (tick env dt s).screen = Screen.bossFreeze) ∧
    (∀ (env : Env) (dt : ℚ) (s : GameState) (b : Boss) (l : List PlayerArrow),
      s.screen = Screen.playing → s.hasFlapped = true →
      checkPillarCollision (movedPlayer env (LEVELS.getD s.level cfg0) dt s)
        (movedPillars env (LEVELS.getD s.level cfg0) dt s) = false →
      ¬ ((movedPlayer env (LEVELS.getD s.level cfg0) dt s).y < 0) →
      ¬ (env.h + PLAYER_SIZE < (movedPlayer env (LEVELS.getD s.level cfg0) dt s).y +
        (movedPlayer env (LEVELS.getD s.level cfg0) dt s).height) →
      s.boss = some b → 3 ≤ s.level →
      (LEVELS.getD s.level cfg0).hasBoss = true →
      projectileHitsPlayer (movedPlayer env (LEVELS.getD s.level cfg0) dt s)
        (moveProjectiles dt (s.projectiles ++
          (bossShoot (LEVELS.getD s.level cfg0) true dt MEGA_BOSS_SIZE
            (movedPlayer env (LEVELS.getD s.level cfg0) dt s)
            (bossUpdate env dt b)).2)) = false →
      removeLastHit (arrowHitsBoss MEGA_BOSS_SIZE
          ((bossShoot (LEVELS.getD s.level cfg0) true dt MEGA_BOSS_SIZE
            (movedPlayer env (LEVELS.getD s.level cfg0) dt s) (bossUpdate env dt b)).1))
        (stepArrows env dt (movedPlayer env (LEVELS.getD s.level cfg0) dt s)
          s.arrows s.arrowCooldown).1 = some l →
      b.health ≤ 1 →
      (tick env dt s).screen = Screen.bossFreeze) ∧
    (∀ (env : Env) (dt : ℚ) (s : GameState), s.screen = Screen.bossFreeze →
      ((tick env dt s).screen = Screen.bossFreeze ∨
       (tick env dt s).screen = Screen.bossExplode) ∧
      ((tick env dt s).screen = Screen.bossExplode ↔
        (if 3 ≤ s.level then (850:ℚ) else 675) ≤ s.explodeTimer + dt)) ∧
    (∀ (env : Env) (dt : ℚ) (s : GameState), s.screen = Screen.bossExplode →
      ((tick env dt s).screen = Screen.bossExplode ∨
       (tick env dt s).screen = Screen.victory) ∧
      ((tick env dt s).screen = Screen.victory ↔
        (if 3 ≤ s.level then (430:ℚ) else 350) ≤ s.explodeTimer + dt)) := by
  refine ⟨?_, ?_, ?_, ?_⟩
  · intro env dt s b hscr hf hc hy hfl hboss hlvl hproj hreach
    rw [tick_playing env dt s hscr]
    exact playingTick_boss_reach env dt _ s b hf hc hy hfl hboss hlvl hproj hreach
  · intro env dt s b l hscr hf hc hy hfl hboss hlvl hcfgb hproj hhit hdead
    rw [tick_playing env dt s hscr]
    obtain ⟨b', -, -, -, -, hfr, -⟩ :=
      playingTick_mega_arrow_hit env dt _ s b l hf hc hy hfl hboss hlvl hcfgb hproj hhit
    exact hfr hdead
  · intro env dt s hscr
    rw [tick_bossFreeze env dt s hscr]
    obtain ⟨-, -, h3, h4⟩ := freezeTick_spec dt s hscr
    exact ⟨h3, h4⟩
  · intro env dt s hscr
    rw [tick_bossExplode env dt s hscr]
    obtain ⟨-, -, h3, h4⟩ := explodeTick_spec dt s hscr
    exact ⟨h3, h4⟩

/-- Witness for C2 (amended) at concrete inputs: a regular-boss reach at level
2 and a lethal arrow hit on a health-1 mega boss at level 3 both freeze; a
completed freeze timer explodes; a completed explosion reaches victory. -/
theorem c2_boss_defeat_screen_sequence_witness :
    (tick envD 1 { sBase with level := 2, boss := some ⟨130, 250, 1, 1, 0, 0, 78⟩ }).screen
      = Screen.bossFreeze ∧
    (tick envD 1 { sBase with level := 3, boss := some ⟨620, 250, 1, 3, 0, 0, 52⟩, arrows := [⟨600, 250, 5⟩], arrowCooldown := 5 }).screen
      = Screen.bossFreeze ∧
    (tick envD 1 { sBase with screen := Screen.bossFreeze, level := 2, explodeTimer := 675 }).screen
      = Screen.bossExplode ∧
    (tick envD 1 { sBase with screen := Screen.bossExplode, level := 3, explodeTimer := 430 }).screen
      = Screen.victory := by
  refine ⟨?_, ?_, ?_, ?_⟩
  · refine c2_boss_defeat_screen_sequence.1 envD 1
      { sBase with level := 2, boss := some ⟨130, 250, 1, 1, 0, 0, 78⟩ }
      ⟨130, 250, 1, 1, 0, 0, 78⟩ rfl rfl rfl ?_ ?_ rfl (by norm_num) ?_ ?_ <;>
      norm_num [movedPlayer, gravityStep, applyWind, advancePlayer, bossShoot, bossUpdate,
        moveProjectiles, projectileHitsPlayer, sBase, envD, desktopPhys, LEVELS, cfg0,
        GRAVITY, PLAYER_SIZE, BOSS_SIZE, BOSS_SHOOT_INTERVAL, BOSS_ADVANCE_SPEED]
  · refine c2_boss_defeat_screen_sequence.2.1 envD 1
      { sBase with level := 3, boss := some ⟨620, 250, 1, 3, 0, 0, 52⟩, arrows := [⟨600, 250, 5⟩], arrowCooldown := 5 }
      ⟨620, 250, 1, 3, 0, 0, 52⟩ [] rfl rfl rfl ?_ ?_ rfl (by norm_num) rfl ?_ ?_
      (by norm_num) <;>
      norm_num [movedPlayer, gravityStep, applyWind, advancePlayer, bossShoot, bossUpdate,
        moveProjectiles, projectileHitsPlayer, stepArrows, removeLastHit, arrowHitsBoss,
        circleHit, sBase, envD, desktopPhys, LEVELS, cfg0, GRAVITY, PLAYER_SIZE,
        MEGA_BOSS_SIZE, ARROW_SIZE, ARROW_SPEED, MEGA_BOSS_SHOOT_INTERVAL,
        PLAYER_ARROW_INTERVAL]
  · exact (c2_boss_defeat_screen_sequence.2.2.1 envD 1
      { sBase with screen := Screen.bossFreeze, level := 2, explodeTimer := 675 }
      rfl).2.mpr (by norm_num)
  · exact (c2_boss_defeat_screen_sequence.2.2.2 envD 1
      { sBase with screen := Screen.bossExplode, level := 3, explodeTimer := 430 }
      rfl).2.mpr (by norm_num)

/-- Claim C5: in a mega-boss fight with maxHealth = 3, each registered
arrow-boss hit (circular proximity test) removes exactly that one arrow and
decrements boss health by exactly one; the tick transitions to bossFreeze
exactly when the hit brings health from 1 to 0 (the third hit overall), and
while health stays positive the state machine stays in playing. -/
theorem c5_mega_boss_three_hits (env : Env) (dt : ℚ) (s : GameState) (b : Boss)
    (l : List PlayerArrow)
    (hscr : s.screen = Screen.playing)
    (hf : s.hasFlapped = true)
    (hc : checkPillarCollision (movedPlayer env (LEVELS.getD s.level cfg0) dt s)
      (movedPillars env (LEVELS.getD s.level cfg0) dt s) = false)
    (hy : ¬ ((movedPlayer env (LEVELS.getD s.level cfg0) dt s).y < 0))
    (hfl : ¬ (env.h + PLAYER_SIZE < (movedPlayer env (LEVELS.getD s.level cfg0) dt s).y +
      (movedPlayer env (LEVELS.getD s.level cfg0) dt s).height))
    (hboss : s.boss = some b)
    (hlvl : s.level = 3)
    (hmax : b.maxHealth = 3)
    (hproj : projectileHitsPlayer (movedPlayer env (LEVELS.getD s.level cfg0) dt s)
      (moveProjectiles dt (s.projectiles ++
        (bossShoot (LEVELS.getD s.level cfg0) true dt MEGA_BOSS_SIZE
          (movedPlayer env (LEVELS.getD s.level cfg0) dt s)
          (bossUpdate env dt b)).2)) = false)
    (hhit : removeLastHit (arrowHitsBoss MEGA_BOSS_SIZE
        ((bossShoot (LEVELS.getD s.level cfg0) true dt MEGA_BOSS_SIZE
          (movedPlayer env (LEVELS.getD s.level cfg0) dt s) (bossUpdate env dt b)).1))
      (stepArrows env dt (movedPlayer env (LEVELS.getD s.level cfg0) dt s)
        s.arrows s.arrowCooldown).1 = some l) :
    ∃ b' : Boss, (tick env dt s).boss = some b' ∧
      b'.health = b.health - 1 ∧ b'.maxHealth = 3 ∧
      (tick env dt s).arrows = l ∧
      (stepArrows env dt (movedPlayer env (LEVELS.getD s.level cfg0) dt s)
        s.arrows s.arrowCooldown).1.length = l.length + 1 ∧
      ((tick env dt s).screen = Screen.bossFreeze ↔ b.health ≤ 1) ∧
      (1 < b.health → (tick env dt s).screen = Screen.playing) := by
  rw [tick_playing env dt s hscr]
  obtain ⟨b', h1, h2, h3, h4, h5, h6⟩ :=
    playingTick_mega_arrow_hit env dt (LEVELS.getD s.level cfg0) s b l hf hc hy hfl hboss
      (by omega) (by rw [hlvl]; rfl) hproj hhit
  refine ⟨b', h1, ?_, ?_, h4, ?_, ?_, ?_⟩
  · omega
  · omega
  · have := removeLastHit_length _ _ _ hhit
    omega
  · constructor
    · intro hfr
      by_contra hgt
      push_neg at hgt
      have := h6 (by omega)
      rw [this, hscr] at hfr
      exact Screen.noConfusion hfr
    · exact h5
  · intro hgt
    rw [h6 hgt, hscr]

/-- A concrete mega-boss duel state: level 3, one player arrow about to hit
the boss, auto-fire and boss shot cooldowns still running. -/
def megaFight (h : ℤ) : GameState :=
  { sBase with level := 3, boss := some ⟨620, 250, h, 3, 0, 0, 52⟩, arrows := [⟨600, 250, 5⟩], arrowCooldown := 5 }

/-- Witness for C5 at concrete inputs: with maxHealth 3, the first and second
hits leave the boss alive with the screen on playing, and the hit at health 1
(the third overall) freezes the boss with health 0. -/
theorem c5_mega_boss_three_hits_witness :
    ((tick envD 1 (megaFight 3)).screen = Screen.playing ∧
      ∃ b', (tick envD 1 (megaFight 3)).boss = some b' ∧ b'.health = 2) ∧
    ((tick envD 1 (megaFight 2)).screen = Screen.playing ∧
      ∃ b', (tick envD 1 (megaFight 2)).boss = some b' ∧ b'.health = 1) ∧
    ((tick envD 1 (megaFight 1)).screen = Screen.bossFreeze ∧
      ∃ b', (tick envD 1 (megaFight 1)).boss = some b' ∧ b'.health = 0) := by
  have key : ∀ h : ℤ, ∃ b' : Boss, (tick envD 1 (megaFight h)).boss = some b' ∧
      b'.health = h - 1 ∧
      ((tick envD 1 (megaFight h)).screen = Screen.bossFreeze ↔ h ≤ 1) ∧
      (1 < h → (tick envD 1 (megaFight h)).screen = Screen.playing) := by
    intro h
    obtain ⟨b', h1, h2, -, -, -, h6, h7⟩ := c5_mega_boss_three_hits envD 1 (megaFight h)
      ⟨620, 250, h, 3, 0, 0, 52⟩ [] rfl rfl rfl
      (by norm_num [movedPlayer, gravityStep, applyWind, megaFight, sBase, envD,
        desktopPhys, GRAVITY])
      (by norm_num [movedPlayer, gravityStep, applyWind, megaFight, sBase, envD,
        desktopPhys, GRAVITY, PLAYER_SIZE])
      rfl rfl rfl
      (by norm_num [movedPlayer, gravityStep, applyWind, bossShoot, bossUpdate,
        moveProjectiles, projectileHitsPlayer, megaFight, sBase, envD, desktopPhys,
        GRAVITY, MEGA_BOSS_SIZE, MEGA_BOSS_SHOOT_INTERVAL, LEVELS, cfg0])
      (by norm_num [movedPlayer, gravityStep, applyWind, bossShoot, bossUpdate,
        stepArrows, removeLastHit, arrowHitsBoss, circleHit, megaFight, sBase, envD,
        desktopPhys, GRAVITY, MEGA_BOSS_SIZE, MEGA_BOSS_SHOOT_INTERVAL, ARROW_SIZE,
        ARROW_SPEED, PLAYER_ARROW_INTERVAL, LEVELS, cfg0])
    exact ⟨b', h1, h2, h6, h7⟩
  obtain ⟨b3, k3a, k3b, -, k3d⟩ := key 3
  obtain ⟨b2, k2a, k2b, -, k2d⟩ := key 2
  obtain ⟨b1, k1a, k1b, k1c, -⟩ := key 1
  refine ⟨⟨k3d (by norm_num), b3, k3a, by omega⟩,
    ⟨k2d (by norm_num), b2, k2a, by omega⟩,
    ⟨k1c.mpr (by norm_num), b1, k1a, by omega⟩⟩
theorem bossPhase_level (env : Env) (dt : ℚ) (cfg : LevelConfig)
    (st : GameState) (b : Boss) :
    (bossPhase env dt cfg st b).1.level = st.level := by
  unfold bossPhase
  dsimp only
  split_ifs <;> first | rfl | (split <;> split_ifs <;> rfl) | (split <;> rfl)

theorem playingTick_level (env : Env) (dt : ℚ) (cfg : LevelConfig) (s : GameState) :
    (playingTick env dt cfg s).level = s.level := by
  unfold playingTick
  dsimp only
  split_ifs <;>
    first
      | rfl
      | (split <;> first | rfl | apply bossPhase_level)

theorem freezeTick_level_boss (dt : ℚ) (s : GameState) :
    (freezeTick dt s).level = s.level ∧ (freezeTick dt s).boss = s.boss := by
  unfold freezeTick
  dsimp only
  split_ifs <;> exact ⟨rfl, rfl⟩

theorem explodeTick_level_boss (dt : ℚ) (s : GameState) :
    (explodeTick dt s).level = s.level ∧ (explodeTick dt s).boss = s.boss := by
  unfold explodeTick
  dsimp only
  split_ifs <;> exact ⟨rfl, rfl⟩

theorem countdownTick_fields (dt : ℚ) (s : GameState) :
    (countdownTick dt s).boss = s.boss ∧ (countdownTick dt s).level = s.level ∧
    ((countdownTick dt s).screen = s.screen ∨
     (countdownTick dt s).screen = Screen.playing) := by
  unfold countdownTick
  dsimp only
  split_ifs <;> exact ⟨rfl, rfl, by first | exact Or.inr rfl | exact Or.inl rfl⟩

theorem tick_level (env : Env) (dt : ℚ) (s : GameState) :
    (tick env dt s).level = s.level := by
  unfold tick
  cases hscr : s.screen <;> dsimp only
  · exact (countdownTick_fields dt s).2.1
  · exact playingTick_level env dt _ s
  all_goals first
    | rfl
    | exact (freezeTick_level_boss dt s).1
    | exact (explodeTick_level_boss dt s).1

theorem megaTrace_aux (env : Env) :
    ∀ (dts : List ℚ) (s : GameState) (N : ℤ),
      s.level = 3 →
      (∃ b : Boss, s.boss = some b ∧ N ≤ b.health) →
      ((s.screen = Screen.bossFreeze ∨ s.screen = Screen.bossExplode ∨
        s.screen = Screen.victory) → N ≤ 0) →
      (runTicks env dts s).screen = Screen.bossFreeze →
      N ≤ dts.length := by
  intro dts
  induction dts with
  | nil =>
    intro s N _ _ hset hfin
    have := hset (Or.inl hfin)
    simpa using this
  | cons d rest ih =>
    intro s N hl hb hset hfin
    obtain ⟨b, hboss, hNb⟩ := hb
    have hl' : (tick env d s).level = 3 := by rw [tick_level, hl]
    have step : (∃ b' : Boss, (tick env d s).boss = some b' ∧ N - 1 ≤ b'.health) ∧
        (((tick env d s).screen = Screen.bossFreeze ∨
          (tick env d s).screen = Screen.bossExplode ∨
          (tick env d s).screen = Screen.victory) → N - 1 ≤ 0) := by
      cases hscr : s.screen with
      | playing =>
        have htick : tick env d s = playingTick env d (LEVELS.getD s.level cfg0) s :=
          tick_playing env d s hscr
        have hcfgb : (LEVELS.getD s.level cfg0).hasBoss = true := by rw [hl]; rfl
        obtain ⟨b', h1, h2, h3, h4, h5⟩ :=
          playingTick_mega_tick_cases env d (LEVELS.getD s.level cfg0) s b hboss
            (by omega) hcfgb
        rw [htick]
        refine ⟨⟨b', h1, by omega⟩, ?_⟩
        intro hset'
        rcases hset' with hx | hx | hx
        · rcases h5 hx with hh | hh
          · rw [hscr] at hh
            exact Screen.noConfusion hh
          · omega
        · rcases h4 with hd | hd | hd <;> rw [hx] at hd <;>
            first
              | (rw [hscr] at hd; exact Screen.noConfusion hd)
              | exact Screen.noConfusion hd
        · rcases h4 with hd | hd | hd <;> rw [hx] at hd <;>
            first
              | (rw [hscr] at hd; exact Screen.noConfusion hd)
              | exact Screen.noConfusion hd
      | countdown =>
        have htick : tick env d s = countdownTick d s := by unfold tick; rw [hscr]
        obtain ⟨hbs, -, hsc⟩ := countdownTick_fields d s
        rw [htick]
        refine ⟨⟨b, by rw [hbs, hboss], by omega⟩, ?_⟩
        intro hset'
        rcases hsc with hsc | hsc <;>
          (rcases hset' with hx | hx | hx <;> rw [hx] at hsc) <;>
          first
            | (rw [hscr] at hsc; exact Screen.noConfusion hsc)
            | exact Screen.noConfusion hsc
      | bossIntro =>
        have htick : tick env d s = s := by unfold tick; rw [hscr]
        rw [htick]
        refine ⟨⟨b, hboss, by omega⟩, ?_⟩
        intro hset'
        rcases hset' with hx | hx | hx <;> rw [hscr] at hx <;> exact Screen.noConfusion hx
      | bossFreeze =>
        have htick : tick env d s = freezeTick d s := tick_bossFreeze env d s hscr
        obtain ⟨hbs, -, -, -⟩ := freezeTick_spec d s hscr
        rw [htick]
        have hN0 : N ≤ 0 := hset (Or.inl hscr)
        exact ⟨⟨b, by rw [hbs, hboss], by omega⟩, fun _ => by omega⟩
      | bossExplode =>
        have htick : tick env d s = explodeTick d s := tick_bossExplode env d s hscr
        obtain ⟨hbs, -, -, -⟩ := explodeTick_spec d s hscr
        rw [htick]
        have hN0 : N ≤ 0 := hset (Or.inr (Or.inl hscr))
        exact ⟨⟨b, by rw [hbs, hboss], by omega⟩, fun _ => by omega⟩
      | victory =>
        have htick : tick env d s = s := by unfold tick; rw [hscr]
        rw [htick]
        have hN0 : N ≤ 0 := hset (Or.inr (Or.inr hscr))
        exact ⟨⟨b, hboss, by omega⟩, fun _ => by omega⟩
      | gameOver =>
        have htick : tick env d s = s := by unfold tick; rw [hscr]
        rw [htick]
        refine ⟨⟨b, hboss, by omega⟩, ?_⟩
        intro hset'
        rcases hset' with hx | hx | hx <;> rw [hscr] at hx <;> exact Screen.noConfusion hx
      | levelComplete =>
        have htick : tick env d s = s := by unfold tick; rw [hscr]
        rw [htick]
        refine ⟨⟨b, hboss, by omega⟩, ?_⟩
        intro hset'
        rcases hset' with hx | hx | hx <;> rw [hscr] at hx <;> exact Screen.noConfusion hx
    obtain ⟨hb', hset'⟩ := step
    have hrec := ih (tick env d s) (N - 1) hl' hb' hset' hfin
    simp only [List.length_cons]
    omega

/-- Claim C10: in every mega-boss tick at most one player arrow is consumed
against the boss (the collision loop splices one arrow and breaks) and boss
health decreases by at most one, no matter how many arrows overlap the boss;
consequently, starting a playing trace at the spawn state (health =
maxHealth = N), the boss is never defeated (bossFreeze) in fewer than N
ticks. -/
theorem c10_mega_boss_damage_rate :
    (∀ {α : Type} (hit : α → Bool) (l l' : List α),
      removeLastHit hit l = some l' → l'.length + 1 = l.length) ∧
    (∀ (env : Env) (dt : ℚ) (s : GameState) (b : Boss),
      s.level = 3 → s.boss = some b →
      ∃ b' : Boss, (tick env dt s).boss = some b' ∧
        b.health - 1 ≤ b'.health ∧ b'.health ≤ b.health) ∧
    (∀ (env : Env) (dts : List ℚ) (s : GameState) (b : Boss),
      s.screen = Screen.playing → s.level = 3 → s.boss = some b →
      b.health = b.maxHealth →
      (runTicks env dts s).screen = Screen.bossFreeze →
      b.maxHealth ≤ dts.length) := by
  refine ⟨fun hit l l' h => removeLastHit_length hit l l' h, ?_, ?_⟩
  · intro env dt s b hl hboss
    cases hscr : s.screen with
    | playing =>
      rw [tick_playing env dt s hscr]
      obtain ⟨b', h1, h2, h3, -, -⟩ :=
        playingTick_mega_tick_cases env dt (LEVELS.getD s.level cfg0) s b hboss
          (by omega) (by rw [hl]; rfl)
      exact ⟨b', h1, h2, h3⟩
    | countdown =>
      have htick : tick env dt s = countdownTick dt s := by unfold tick; rw [hscr]
      rw [htick, (countdownTick_fields dt s).1, hboss]
      exact ⟨b, rfl, by omega, by omega⟩
    | bossFreeze =>
      rw [tick_bossFreeze env dt s hscr, (freezeTick_spec dt s hscr).1, hboss]
      exact ⟨b, rfl, by omega, by omega⟩
    | bossExplode =>
      rw [tick_bossExplode env dt s hscr, (explodeTick_spec dt s hscr).1, hboss]
      exact ⟨b, rfl, by omega, by omega⟩
    | bossIntro =>
      have htick : tick env dt s = s := by unfold tick; rw [hscr]
      rw [htick, hboss]
      exact ⟨b, rfl, by omega, by omega⟩
    | gameOver =>
      have htick : tick env dt s = s := by unfold tick; rw [hscr]
      rw [htick, hboss]
      exact ⟨b, rfl, by omega, by omega⟩
    | levelComplete =>
      have htick : tick env dt s = s := by unfold tick; rw [hscr]
      rw [htick, hboss]
      exact ⟨b, rfl, by omega, by omega⟩
    | victory =>
      have htick : tick env dt s = s := by unfold tick; rw [hscr]
      rw [htick, hboss]
      exact ⟨b, rfl, by omega, by omega⟩
  · intro env dts s b hscr hl hboss hspawn hfin
    have := megaTrace_aux env dts s b.maxHealth hl ⟨b, hboss, by omega⟩
      (by intro hset; rcases hset with hx | hx | hx <;> rw [hscr] at hx <;>
        exact Screen.noConfusion hx) hfin
    exact this

/-- Witness for C10 at concrete inputs: a double-overlap arrow list loses only
its last colliding element; a concrete mega tick drops health from 3 to at
least 2; a maxHealth-1 mega boss killed in a single tick satisfies the bound
1 tick is at least maxHealth. -/
theorem c10_mega_boss_damage_rate_witness :
    (∃ l' : List PlayerArrow, removeLastHit (fun _ => true)
        ([⟨600, 250, 5⟩, ⟨610, 250, 5⟩] : List PlayerArrow) = some l' ∧
        l'.length + 1 = 2) ∧
    (∃ b' : Boss, (tick envD 1 (megaFight 3)).boss = some b' ∧
      (2:ℤ) ≤ b'.health ∧ b'.health ≤ 3) ∧
    ((1:ℤ) ≤ ([1] : List ℚ).length) := by
  refine ⟨?_, ?_, ?_⟩
  · exact ⟨[⟨600, 250, 5⟩], rfl, c10_mega_boss_damage_rate.1 (fun _ => true)
      ([⟨600, 250, 5⟩, ⟨610, 250, 5⟩] : List PlayerArrow) [⟨600, 250, 5⟩] rfl⟩
  · obtain ⟨b', h1, h2, h3⟩ := c10_mega_boss_damage_rate.2.1 envD 1 (megaFight 3)
      ⟨620, 250, 3, 3, 0, 0, 52⟩ rfl rfl
    have e : ({ x := 620, y := 250, health := 3, maxHealth := 3, phase := 0, timer := 0, shootCooldown := 52 } : Boss).health = (3:ℤ) := rfl
    exact ⟨b', h1, by omega, by omega⟩
  · have hb := c10_mega_boss_damage_rate.2.2 envD [1]
      { sBase with level := 3, boss := some ⟨620, 250, 1, 1, 0, 0, 52⟩, arrows := [⟨600, 250, 5⟩], arrowCooldown := 5 }
      ⟨620, 250, 1, 1, 0, 0, 52⟩ rfl rfl rfl rfl ?_
    · have e2 : ({ x := 620, y := 250, health := 1, maxHealth := 1, phase := 0, timer := 0, shootCooldown := 52 } : Boss).maxHealth = (1:ℤ) := rfl
      rw [e2] at hb
      exact hb
    · show (runTicks envD [1] _).screen = Screen.bossFreeze
      have hstep : runTicks envD [1]
          { sBase with level := 3, boss := some ⟨620, 250, 1, 1, 0, 0, 52⟩, arrows := [⟨600, 250, 5⟩], arrowCooldown := 5 } =
          tick envD 1
          { sBase with level := 3, boss := some ⟨620, 250, 1, 1, 0, 0, 52⟩, arrows := [⟨600, 250, 5⟩], arrowCooldown := 5 } := rfl
      rw [hstep, tick_playing _ _ _ rfl]
      obtain ⟨b', -, -, -, -, hfr, -⟩ := playingTick_mega_arrow_hit envD 1
        (LEVELS.getD 3 cfg0)
        { sBase with level := 3, boss := some ⟨620, 250, 1, 1, 0, 0, 52⟩, arrows := [⟨600, 250, 5⟩], arrowCooldown := 5 }
        ⟨620, 250, 1, 1, 0, 0, 52⟩ [] rfl rfl
        (by norm_num [movedPlayer, gravityStep, applyWind, sBase, envD, desktopPhys, GRAVITY])
        (by norm_num [movedPlayer, gravityStep, applyWind, sBase, envD, desktopPhys,
          GRAVITY, PLAYER_SIZE])
        rfl (by norm_num) rfl
        (by norm_num [movedPlayer, gravityStep, applyWind, bossShoot, bossUpdate,
          moveProjectiles, projectileHitsPlayer, sBase, envD, desktopPhys, GRAVITY,
          MEGA_BOSS_SIZE, MEGA_BOSS_SHOOT_INTERVAL, LEVELS, cfg0])
        (by norm_num [movedPlayer, gravityStep, applyWind, bossShoot, bossUpdate,
          stepArrows, removeLastHit, arrowHitsBoss, circleHit, sBase, envD, desktopPhys,
          GRAVITY, MEGA_BOSS_SIZE, MEGA_BOSS_SHOOT_INTERVAL, ARROW_SIZE, ARROW_SPEED,
          PLAYER_ARROW_INTERVAL, LEVELS, cfg0])
      exact hfr (by norm_num)
/-- Number of pillars already marked passed. -/
def passedCount (ps : List Pillar) : ℕ := (ps.filter (fun p => p.passed)).length

theorem passPillars_length (pl : Player) (ps : List Pillar) (score best : ℤ)
    (flag : Bool) : (passPillars pl ps score best flag).1.length = ps.length := by
  rw [passPillars_fst]
  exact List.length_map ps _

theorem passPillars_score (pl : Player) :
    ∀ (ps : List Pillar) (score best : ℤ) (flag : Bool),
      (passPillars pl ps score best flag).2.1 + (passedCount ps : ℤ) =
        score + (passedCount (passPillars pl ps score best flag).1 : ℤ) := by
  intro ps
  induction ps with
  | nil => intro score best flag; simp [passPillars, passedCount]
  | cons p rest ih =>
    intro score best flag
    by_cases hm : ¬ p.passed = true ∧ p.x + p.width < pl.x
    · have hp : p.passed = false := by
        obtain ⟨h1, -⟩ := hm
        revert h1
        cases p.passed <;> simp
      simp only [passPillars]
      rw [if_pos hm]
      dsimp only
      simp only [passedCount, List.filter_cons, hp, Bool.false_eq_true, if_false,
        if_true, List.length_cons]
      have hr := ih (score + 1) (updateBest (score + 1) best flag).1
        (updateBest (score + 1) best flag).2
      simp only [passedCount] at hr
      push_cast
      push_cast at hr
      linarith
    · simp only [passPillars]
      rw [if_neg hm]
      dsimp only
      have hr := ih score best flag
      simp only [passedCount] at hr ⊢
      rcases hb : p.passed with _ | _ <;>
        simp only [List.filter_cons, hb, Bool.false_eq_true, if_false, if_true,
          List.length_cons] <;>
        push_cast <;>
        push_cast at hr <;>
        linarith

theorem passPillars_monotone (pl : Player) :
    ∀ (ps : List Pillar) (score best : ℤ) (flag : Bool),
      passedCount ps ≤ passedCount (passPillars pl ps score best flag).1 := by
  intro ps
  induction ps with
  | nil => intro score best flag; exact le_refl _
  | cons p rest ih =>
    intro score best flag
    by_cases hm : ¬ p.passed = true ∧ p.x + p.width < pl.x
    · have hp : p.passed = false := by
        obtain ⟨h1, -⟩ := hm
        revert h1
        cases p.passed <;> simp
      simp only [passPillars]
      rw [if_pos hm]
      dsimp only
      simp only [passedCount, List.filter_cons, hp, Bool.false_eq_true, if_false,
        if_true, List.length_cons]
      have hr := ih (score + 1) (updateBest (score + 1) best flag).1
        (updateBest (score + 1) best flag).2
      simp only [passedCount] at hr
      omega
    · simp only [passPillars]
      rw [if_neg hm]
      dsimp only
      have hr := ih score best flag
      simp only [passedCount] at hr ⊢
      rcases hb : p.passed with _ | _ <;>
        simp only [List.filter_cons, hb, Bool.false_eq_true, if_false, if_true,
          List.length_cons] <;>
        omega

theorem movedPillars_passedCount (env : Env) (cfg : LevelConfig) (dt : ℚ)
    (s : GameState) : passedCount (movedPillars env cfg dt s) = passedCount s.pillars := by
  unfold movedPillars passedCount
  rw [List.filter_map]
  have : (fun p : Pillar => p.passed) ∘ movePillar env cfg dt (s.frame + dt) =
      fun p : Pillar => p.passed := by
    funext p
    rfl
  rw [this, List.length_map]

theorem movedPillars_length (env : Env) (cfg : LevelConfig) (dt : ℚ) (s : GameState) :
    (movedPillars env cfg dt s).length = s.pillars.length :=
  List.length_map s.pillars _

theorem playingTick_noboss_inv (env : Env) (dt : ℚ) (cfg : LevelConfig) (s : GameState)
    (hcf : cfg.hasBoss = false) (hhearts : s.hearts = []) (hbn : s.boss = none) :
    (playingTick env dt cfg s).hearts = [] ∧
    (playingTick env dt cfg s).boss = none ∧
    (playingTick env dt cfg s).pillars.length = s.pillars.length ∧
    (playingTick env dt cfg s).score + (passedCount s.pillars : ℤ)
      = s.score + (passedCount (playingTick env dt cfg s).pillars : ℤ) ∧
    passedCount s.pillars ≤ passedCount (playingTick env dt cfg s).pillars ∧
    ((playingTick env dt cfg s).pillars.all (fun p => p.passed) = true →
      (playingTick env dt cfg s).screen = Screen.levelComplete ∨
      (playingTick env dt cfg s).screen = Screen.gameOver ∨
      ((playingTick env dt cfg s).pillars = s.pillars ∧
       (playingTick env dt cfg s).screen = s.screen)) ∧
    ((playingTick env dt cfg s).screen = Screen.levelComplete ∨
     (playingTick env dt cfg s).screen = Screen.gameOver ∨
     (playingTick env dt cfg s).screen = s.screen) := by
  have hscore : (passPillars (movedPlayer env cfg dt s) (movedPillars env cfg dt s)
        s.score s.bestScore s.newHighScore).2.1 + (passedCount s.pillars : ℤ)
      = s.score + (passedCount (passPillars (movedPlayer env cfg dt s)
        (movedPillars env cfg dt s) s.score s.bestScore s.newHighScore).1 : ℤ) := by
    have h := passPillars_score (movedPlayer env cfg dt s) (movedPillars env cfg dt s)
      s.score s.bestScore s.newHighScore
    rw [movedPillars_passedCount] at h
    exact h
  have hmono : passedCount s.pillars ≤ passedCount (passPillars (movedPlayer env cfg dt s)
      (movedPillars env cfg dt s) s.score s.bestScore s.newHighScore).1 := by
    have h := passPillars_monotone (movedPlayer env cfg dt s) (movedPillars env cfg dt s)
      s.score s.bestScore s.newHighScore
    rw [movedPillars_passedCount] at h
    exact h
  have hlen : (passPillars (movedPlayer env cfg dt s) (movedPillars env cfg dt s)
      s.score s.bestScore s.newHighScore).1.length = s.pillars.length := by
    rw [passPillars_length, movedPillars_length]
  cases hfb : s.hasFlapped with
  | false =>
    simp only [playingTick, hfb, Bool.false_eq_true, if_false]
    refine ⟨?_, ?_, ?_, ?_, ?_, fun _ => Or.inr (Or.inr ?_), Or.inr (Or.inr ?_)⟩ <;>
      first
        | exact trivial
        | exact ⟨trivial, trivial⟩
        | exact ⟨rfl, rfl⟩
        | rfl
        | exact hhearts
        | exact hbn
        | exact le_refl _
        | (push_cast; ring)
  | true =>
    simp only [playingTick, hfb, if_true, hhearts, hbn, List.map_nil, collectHearts,
      hcf, Bool.false_eq_true, false_and, and_false, if_false, true_and, reduceCtorEq,
      Option.isSome_none]
    set pl1 := movedPlayer env cfg dt s with hpl1
    set mp1 := movedPillars env cfg dt s with hmp1
    set pp := passPillars pl1 mp1 s.score s.bestScore s.newHighScore with hpp
    split_ifs with h1 h2 h3 <;>
      refine ⟨rfl, rfl, hlen, hscore, hmono, ?_, ?_⟩ <;>
      first
        | exact fun _ => Or.inr (Or.inl rfl)
        | exact Or.inr (Or.inl rfl)
        | (intro hall; exact absurd hall (by assumption))
        | exact fun _ => Or.inl rfl
        | exact Or.inl rfl
        | exact Or.inr (Or.inr rfl)
theorem nobossTrace_aux (env : Env) :
    ∀ (dts : List ℚ) (s : GameState) (sc : ℤ) (n : ℕ),
      (LEVELS.getD s.level cfg0).hasBoss = false →
      s.hearts = [] → s.boss = none →
      s.pillars.length = n →
      s.score = sc + (passedCount s.pillars : ℤ) →
      (s.pillars.all (fun p => p.passed) = true →
        s.screen = Screen.levelComplete ∨ s.screen = Screen.gameOver) →
      (s.screen = Screen.playing ∨ s.screen = Screen.levelComplete ∨
        s.screen = Screen.gameOver) →
      (runTicks env dts s).hearts = [] ∧ (runTicks env dts s).boss = none ∧
      (runTicks env dts s).pillars.length = n ∧
      (runTicks env dts s).score = sc + (passedCount (runTicks env dts s).pillars : ℤ) ∧
      ((runTicks env dts s).pillars.all (fun p => p.passed) = true →
        (runTicks env dts s).screen = Screen.levelComplete ∨
        (runTicks env dts s).screen = Screen.gameOver) ∧
      ((runTicks env dts s).screen = Screen.playing ∨
       (runTicks env dts s).screen = Screen.levelComplete ∨
       (runTicks env dts s).screen = Screen.gameOver) := by
  intro dts
  induction dts with
  | nil =>
    intro s sc n hcf hh hbn hlen hsc hall hsset
    exact ⟨hh, hbn, hlen, hsc, hall, hsset⟩
  | cons d rest ih =>
    intro s sc n hcf hh hbn hlen hsc hall hsset
    have hlvl : (tick env d s).level = s.level := tick_level env d s
    have step : (tick env d s).hearts = [] ∧ (tick env d s).boss = none ∧
        (tick env d s).pillars.length = n ∧
        (tick env d s).score = sc + (passedCount (tick env d s).pillars : ℤ) ∧
        ((tick env d s).pillars.all (fun p => p.passed) = true →
          (tick env d s).screen = Screen.levelComplete ∨
          (tick env d s).screen = Screen.gameOver) ∧
        ((tick env d s).screen = Screen.playing ∨
         (tick env d s).screen = Screen.levelComplete ∨
         (tick env d s).screen = Screen.gameOver) := by
      rcases hsset with hscr | hscr | hscr
      · have htick : tick env d s = playingTick env d (LEVELS.getD s.level cfg0) s :=
          tick_playing env d s hscr
        obtain ⟨k1, k2, k3, k4, k5, k6, k7⟩ :=
          playingTick_noboss_inv env d (LEVELS.getD s.level cfg0) s hcf hh hbn
        rw [htick]
        refine ⟨k1, k2, by rw [k3, hlen], by omega, ?_, ?_⟩
        · intro hall'
          rcases k6 hall' with hx | hx | hx
          · exact Or.inl hx
          · exact Or.inr hx
          · obtain ⟨hpe, hse⟩ := hx
            rw [hpe] at hall'
            rcases hall hall' with hy | hy <;> rw [hscr] at hy <;>
              exact Screen.noConfusion hy
        · rcases k7 with hx | hx | hx
          · exact Or.inr (Or.inl hx)
          · exact Or.inr (Or.inr hx)
          · rw [hx, hscr]
            exact Or.inl rfl
      · have htick : tick env d s = s := by unfold tick; rw [hscr]
        rw [htick]
        exact ⟨hh, hbn, hlen, hsc, hall, Or.inr (Or.inl hscr)⟩
      · have htick : tick env d s = s := by unfold tick; rw [hscr]
        rw [htick]
        exact ⟨hh, hbn, hlen, hsc, hall, Or.inr (Or.inr hscr)⟩
    obtain ⟨k1, k2, k3, k4, k5, k6⟩ := step
    have hcf' : (LEVELS.getD (tick env d s).level cfg0).hasBoss = false := by
      rw [hlvl]
      exact hcf
    exact ih (tick env d s) sc n hcf' k1 k2 k3 k4 k5 k6

theorem passedCount_zero : ∀ ps : List Pillar, (∀ p ∈ ps, p.passed = false) →
    passedCount ps = 0 := by
  intro ps
  induction ps with
  | nil => intro _; rfl
  | cons a t ih =>
    intro h
    have ha : a.passed = false := h a (List.mem_cons_self a t)
    have ht := ih (fun p hp => h p (List.mem_cons_of_mem a hp))
    simp only [passedCount] at ht ⊢
    simp [List.filter_cons, ha, ht]

theorem passedCount_full : ∀ ps : List Pillar, (∀ p ∈ ps, p.passed = true) →
    passedCount ps = ps.length := by
  intro ps
  induction ps with
  | nil => intro _; rfl
  | cons a t ih =>
    intro h
    have ha : a.passed = true := h a (List.mem_cons_self a t)
    have ht := ih (fun p hp => h p (List.mem_cons_of_mem a hp))
    simp only [passedCount] at ht ⊢
    simp [List.filter_cons, ha, ht]

/-- Claim C8: on a non-boss level (pillarCount 6) starting from score baseline
sc with six unpassed pillars, no hearts and no boss, every trace keeps the
score equal to sc plus the number of passed pillars (each obstacle pass awards
exactly +1 and fires at most once per obstacle, and at most 6 in total), and
whenever the run ends with all six pillars passed and no death the score is
sc + 6 and the screen has transitioned to levelComplete. -/
theorem c8_pillar_pass_scoring (env : Env) (dts : List ℚ) (s : GameState) (sc : ℤ)
    (hcf : (LEVELS.getD s.level cfg0).hasBoss = false)
    (hlen : s.pillars.length = 6)
    (hunp : ∀ p ∈ s.pillars, p.passed = false)
    (hh : s.hearts = [])
    (hbn : s.boss = none)
    (hscr : s.screen = Screen.playing)
    (hsc : s.score = sc) :
    (runTicks env dts s).pillars.length = 6 ∧
    (runTicks env dts s).score
      = sc + (passedCount (runTicks env dts s).pillars : ℤ) ∧
    passedCount (runTicks env dts s).pillars ≤ 6 ∧
    ((∀ p ∈ (runTicks env dts s).pillars, p.passed = true) →
      (runTicks env dts s).screen ≠ Screen.gameOver →
      (runTicks env dts s).score = sc + 6 ∧
      (runTicks env dts s).screen = Screen.levelComplete) := by
  have h0 : passedCount s.pillars = 0 := passedCount_zero s.pillars hunp
  have hallinit : s.pillars.all (fun p => p.passed) = true →
      s.screen = Screen.levelComplete ∨ s.screen = Screen.gameOver := by
    intro hall
    exfalso
    cases hps : s.pillars with
    | nil => rw [hps] at hlen; exact absurd hlen (by decide)
    | cons a t =>
      have ha : a.passed = true := by
        have := List.all_eq_true.mp hall a
        rw [hps] at this
        exact this (List.mem_cons_self a t)
      have hf : a.passed = false := hunp a (by rw [hps]; exact List.mem_cons_self a t)
      rw [ha] at hf
      exact Bool.noConfusion hf
  obtain ⟨k1, k2, k3, k4, k5, k6⟩ :=
    nobossTrace_aux env dts s sc 6 hcf hh hbn hlen (by rw [hsc, h0]; simp)
      hallinit (Or.inl hscr)
  refine ⟨k3, k4, ?_, ?_⟩
  · have hle : ((runTicks env dts s).pillars.filter (fun p => p.passed)).length ≤
        (runTicks env dts s).pillars.length := List.length_filter_le _ _
    unfold passedCount
    omega
  · intro hall hngo
    have hall' : (runTicks env dts s).pillars.all (fun p => p.passed) = true :=
      List.all_eq_true.mpr hall
    rcases k5 hall' with hx | hx
    · refine ⟨?_, hx⟩
      rw [k4, passedCount_full _ hall, k3]
      norm_num
    · exact absurd hx hngo

/-- A level-0 state with six identical unpassed pillars just left of the
player, so that a single unit tick passes all of them. -/
def s8 : GameState := { sBase with pillars := List.replicate 6 ⟨20, 250, 240, 52, false, 0⟩ }

theorem c8_pillar_pass_scoring_witness :
    (∀ p ∈ s8.pillars, p.passed = false) ∧
    (runTicks envD [1] s8).score = 0 + 6 ∧
    (runTicks envD [1] s8).screen = Screen.levelComplete := by
  have hunp : ∀ p ∈ s8.pillars, p.passed = false := fun p hp => by
    rw [List.eq_of_mem_replicate hp]
  have hscreen : (runTicks envD [1] s8).screen = Screen.levelComplete := by
    norm_num [runTicks, tick, playingTick, s8, sBase, envD, desktopPhys, LEVELS, cfg0,
      movedPlayer, movedPillars, movePillar, gravityStep, applyWind, moveWindZone,
      passPillars, collectHearts, updateBest, checkPillarCollision, pillarHit,
      transitionScreen, HITBOX_INSET, PLAYER_SIZE, GRAVITY, List.replicate]
  have hall : ∀ p ∈ (runTicks envD [1] s8).pillars, p.passed = true := by
    norm_num [runTicks, tick, playingTick, s8, sBase, envD, desktopPhys, LEVELS, cfg0,
      movedPlayer, movedPillars, movePillar, gravityStep, applyWind, moveWindZone,
      passPillars, collectHearts, updateBest, checkPillarCollision, pillarHit,
      transitionScreen, HITBOX_INSET, PLAYER_SIZE, GRAVITY, List.replicate]
  have h := (c8_pillar_pass_scoring envD [1] s8 0 rfl rfl hunp rfl rfl rfl rfl).2.2.2
    hall (by rw [hscreen]; decide)
  exact ⟨hunp, h.1, h.2⟩
end Cupid
